import Mathlib

/-!
Verification of the 4Sapte second-hand-market chat bot.

The Python sources are shallowly embedded: attribute dictionaries become
association lists over `PyVal` (strings plus a representative non-string
value type), Python floats become exact rationals `ℚ`, and the stateful
session store becomes explicit state passing over a `GlobalState` record.
Each embedded definition names the Python function it translates.
-/

namespace FourSapte

/-- A Python value stored in an attribute dictionary: a string, or (as the
representative of non-string JSON data reaching `_validate_extracted_data`
and `_calculate_confidence`) an integer.  Python's `str()` maps an integer
to its decimal representation. -/
inductive PyVal where
  | str (s : String)
  | int (n : Int)
deriving DecidableEq, Repr

/-- Python `str(v)` for the embedded values. -/
def pyStr : PyVal → String
  | .str s => s
  | .int n => toString n

/-- An attribute dictionary: an insertion-ordered association list, the
embedding of a Python `dict` (whose keys are unique and iteration order is
insertion order). -/
abbrev PyDict := List (String × PyVal)

/-- Characters stripped by Python `str.strip()` (the ASCII whitespace set;
exotic Unicode whitespace is not modelled). -/
def pySpace (c : Char) : Bool :=
  c = ' ' || c = '\t' || c = '\n' || c = '\r' || c = Char.ofNat 11 || c = Char.ofNat 12

/-- Strip characters satisfying `p` from both ends of a list, as Python
`str.strip` does. -/
def stripEnds (p : Char → Bool) (l : List Char) : List Char :=
  ((l.dropWhile p).reverse.dropWhile p).reverse

/-- Python `s.strip()` on a string. -/
def pyStrip (s : String) : String :=
  ⟨stripEnds pySpace s.data⟩

/-- Python `s.lower()` (ASCII case mapping; the handled catalogs and
attribute names are ASCII). -/
def pyLower (s : String) : String :=
  ⟨s.data.map Char.toLower⟩

/-- Python `needle in hay` for strings: substring occurrence. -/
def listContains (pat : List Char) : List Char → Bool
  | [] => pat.isEmpty
  | c :: t => pat.isPrefixOf (c :: t) || listContains pat t

/-- Python `needle in hay` on strings. -/
def pyIn (needle hay : String) : Bool :=
  listContains needle.data hay.data

/-- First-occurrence lookup in an association list (Python `d[k]` /
`d.get(k)` on a dict; on a dict the key occurs at most once). -/
def dget [DecidableEq κ] (k : κ) : List (κ × α) → Option α
  | [] => none
  | p :: t => if p.1 = k then some p.2 else dget k t

/-- Key membership test (Python `k in d`). -/
def dhas [DecidableEq κ] (k : κ) (d : List (κ × α)) : Bool :=
  d.any (fun p => decide (p.1 = k))

/-- The key list of an association list, in order (Python `d.keys()`). -/
def dkeys (d : List (κ × α)) : List κ :=
  d.map (·.1)

/-- The value list of an association list (Python `list(d.values())`). -/
def dvals (d : List (κ × α)) : List α :=
  d.map (·.2)

/-- Python `d[k] = v` on a dict: overwrite in place when the key exists,
append otherwise. -/
def dinsert [DecidableEq κ] (d : List (κ × α)) (k : κ) (v : α) : List (κ × α) :=
  if dhas k d then d.map (fun p => if p.1 = k then (k, v) else p) else d ++ [(k, v)]

/-- Python `del d[k]` on a dict. -/
def derase [DecidableEq κ] (d : List (κ × α)) (k : κ) : List (κ × α) :=
  d.filter (fun p => decide (¬ p.1 = k))

/-- The sentinel value `'_Not found_'` used throughout the extraction
pipeline. -/
def sentinel : String := "_Not found_"

/-- The lowercased inputs `_validate_extracted_data` replaces by the
sentinel: `['', 'n/a', 'not available', 'none', 'unknown']`. -/
def notFoundInputs : List String :=
  ["", "n/a", "not available", "none", "unknown"]

/-- The per-value cleaning step of `_validate_extracted_data`
(src/deepseek_api.py:292-298, identically src/ai_api.py:165-170): string
values are stripped and blank-ish values replaced by the sentinel;
non-string values pass through untouched. -/
def cleanValue : PyVal → PyVal
  | .str s =>
    let s := pyStrip s
    if pyLower s ∈ notFoundInputs then .str sentinel else .str s
  | v => v

/-- The value bound to an expected attribute by `_validate_extracted_data`:
the cleaned present value, or the sentinel when the attribute is absent
(src/deepseek_api.py:290-300). -/
def cleanExpected (data : PyDict) (attr : String) : PyVal :=
  match dget attr data with
  | some v => cleanValue v
  | none => .str sentinel

/-- The first loop of `_validate_extracted_data`
(src/deepseek_api.py:290-300): bind every expected attribute, in order. -/
def buildExpected (data : PyDict) (expected : List String) : PyDict :=
  expected.foldl (fun acc attr => dinsert acc attr (cleanExpected data attr)) []

/-- The second loop of `_validate_extracted_data`
(src/deepseek_api.py:302-311): walk the raw items and append, under its own
key, any extra string attribute whose stripped value is not a duplicate of
an already recorded value, unless the new value is the sentinel. -/
def addExtras : PyDict → List (String × PyVal) → PyDict
  | v, [] => v
  | v, (k, val) :: rest =>
    if dhas k v then addExtras v rest
    else
      match val with
      | .str s =>
        if ¬ (PyVal.str (pyStrip s)) ∈ dvals v ∨ pyStrip s = sentinel then
          addExtras (v ++ [(k, .str (pyStrip s))]) rest
        else addExtras v rest
      | _ => addExtras v rest

/-- `DeepSeekAPI._validate_extracted_data` (src/deepseek_api.py:286-312),
identical to `AIModelClient._validate_extracted_data`
(src/ai_api.py:160-180). -/
def validateExtractedData (data : PyDict) (expected : List String) : PyDict :=
  addExtras (buildExpected data expected) data

section DictLemmas

variable {κ : Type} {α : Type} [DecidableEq κ]

theorem dhas_iff_mem_dkeys {k : κ} {d : List (κ × α)} :
    dhas k d = true ↔ k ∈ dkeys d := by
  simp only [dhas, List.any_eq_true, decide_eq_true_eq, dkeys, List.mem_map]

theorem dget_cons_self {k : κ} {p : κ × α} {t : List (κ × α)} (h : p.1 = k) :
    dget k (p :: t) = some p.2 := by
  simp [dget, h]

theorem dget_cons_ne {k : κ} {p : κ × α} {t : List (κ × α)} (h : ¬ p.1 = k) :
    dget k (p :: t) = dget k t := by
  simp [dget, h]

theorem dget_isSome_iff {k : κ} {d : List (κ × α)} :
    (dget k d).isSome = true ↔ k ∈ dkeys d := by
  induction d with
  | nil => simp [dget, dkeys]
  | cons p t ih =>
    by_cases h : p.1 = k
    · rw [dget_cons_self h]
      simp [dkeys, h]
    · rw [dget_cons_ne h]
      simp only [dkeys, List.map_cons, List.mem_cons]
      rw [show dkeys t = List.map Prod.fst t from rfl] at ih
      rw [ih]
      constructor
      · intro hm; exact Or.inr hm
      · rintro (hm | hm)
        · exact absurd hm.symm h
        · exact hm

theorem dget_eq_none_of_not_mem {k : κ} {d : List (κ × α)} (h : k ∉ dkeys d) :
    dget k d = none := by
  cases hg : dget k d with
  | none => rfl
  | some v =>
    exact absurd (dget_isSome_iff.mp (by simp [hg])) h

theorem dget_append_left {k : κ} {d e : List (κ × α)} (h : k ∈ dkeys d) :
    dget k (d ++ e) = dget k d := by
  induction d with
  | nil => simp [dkeys] at h
  | cons p t ih =>
    by_cases hp : p.1 = k
    · rw [List.cons_append, dget_cons_self hp, dget_cons_self hp]
    · simp only [dkeys, List.map_cons, List.mem_cons] at h
      rcases h with h | h
      · exact absurd h.symm hp
      · rw [List.cons_append, dget_cons_ne hp, dget_cons_ne hp, ih h]

theorem dget_append_right {k : κ} {d e : List (κ × α)} (h : k ∉ dkeys d) :
    dget k (d ++ e) = dget k e := by
  induction d with
  | nil => simp
  | cons p t ih =>
    simp only [dkeys, List.map_cons, List.mem_cons, not_or] at h
    rw [List.cons_append, dget_cons_ne (fun he => h.1 he.symm), ih h.2]

theorem dget_dinsert_self {d : List (κ × α)} {k : κ} {v : α} :
    dget k (dinsert d k v) = some v := by
  unfold dinsert
  by_cases h : dhas k d = true
  · rw [if_pos h]
    induction d with
    | nil => simp [dhas] at h
    | cons p t ih =>
      by_cases hp : p.1 = k
      · rw [List.map_cons, if_pos hp]
        simp [dget]
      · simp only [dhas, List.any_cons, decide_eq_true_eq, Bool.or_eq_true] at h
        rcases h with h | h
        · exact absurd h hp
        · rw [List.map_cons, if_neg hp, dget_cons_ne hp]
          exact ih h
  · rw [if_neg h, dget_append_right (fun hm => h (dhas_iff_mem_dkeys.mpr hm))]
    simp [dget]

theorem dget_dinsert_ne {d : List (κ × α)} {k a : κ} {v : α} (h : a ≠ k) :
    dget a (dinsert d k v) = dget a d := by
  unfold dinsert
  by_cases hh : dhas k d = true
  · rw [if_pos hh]
    clear hh
    induction d with
    | nil => simp
    | cons p t ih =>
      by_cases hp : p.1 = k
      · rw [List.map_cons, if_pos hp, dget_cons_ne (fun he : (k, v).1 = a => h he.symm),
          dget_cons_ne (fun he : p.1 = a => h ((hp ▸ he : k = a)).symm), ih]
      · rw [List.map_cons, if_neg hp]
        by_cases hpa : p.1 = a
        · rw [dget_cons_self hpa, dget_cons_self hpa]
        · rw [dget_cons_ne hpa, dget_cons_ne hpa, ih]
  · rw [if_neg hh]
    by_cases hm : a ∈ dkeys d
    · exact dget_append_left hm
    · rw [dget_append_right hm, dget_eq_none_of_not_mem hm,
        dget_cons_ne (fun he : (k, v).1 = a => h he.symm)]
      rfl

theorem dkeys_map_overwrite {d : List (κ × α)} {k : κ} {v : α} :
    dkeys (d.map (fun p => if p.1 = k then (k, v) else p)) = dkeys d := by
  simp only [dkeys, List.map_map]
  apply List.map_congr_left
  intro p _
  by_cases hp : p.1 = k <;> simp [hp]

theorem mem_dkeys_dinsert {d : List (κ × α)} {k a : κ} {v : α} :
    a ∈ dkeys (dinsert d k v) ↔ a ∈ dkeys d ∨ a = k := by
  unfold dinsert
  by_cases hh : dhas k d = true
  · rw [if_pos hh, dkeys_map_overwrite]
    constructor
    · exact Or.inl
    · rintro (hm | rfl)
      · exact hm
      · exact dhas_iff_mem_dkeys.mp hh
  · rw [if_neg hh]
    simp [dkeys]

theorem nodup_dkeys_dinsert {d : List (κ × α)} {k : κ} {v : α}
    (h : (dkeys d).Nodup) : (dkeys (dinsert d k v)).Nodup := by
  unfold dinsert
  by_cases hh : dhas k d = true
  · rw [if_pos hh, dkeys_map_overwrite]
    exact h
  · rw [if_neg hh]
    simp only [dkeys, List.map_append]
    rw [List.nodup_append]
    refine ⟨h, List.nodup_singleton _, ?_⟩
    intro a ha hb
    simp only [List.map_cons, List.map_nil, List.mem_singleton] at hb
    subst hb
    exact hh (dhas_iff_mem_dkeys.mpr ha)

theorem dget_foldl_dinsert (f : κ → α) :
    ∀ (exp : List κ) (acc : List (κ × α)) (a : κ),
      dget a (exp.foldl (fun acc attr => dinsert acc attr (f attr)) acc) =
        if a ∈ exp then some (f a) else dget a acc := by
  intro exp
  induction exp with
  | nil => intro acc a; simp
  | cons e rest ih =>
    intro acc a
    rw [List.foldl_cons, ih]
    by_cases hr : a ∈ rest
    · rw [if_pos hr, if_pos (List.mem_cons_of_mem e hr)]
    · by_cases he : a = e
      · subst he
        rw [if_neg hr, if_pos (List.mem_cons_self a rest), dget_dinsert_self]
      · rw [if_neg hr, dget_dinsert_ne he, if_neg (by simp [he, hr])]

theorem mem_dkeys_foldl_dinsert (f : κ → α) :
    ∀ (exp : List κ) (acc : List (κ × α)) (a : κ),
      a ∈ dkeys (exp.foldl (fun acc attr => dinsert acc attr (f attr)) acc) ↔
        a ∈ exp ∨ a ∈ dkeys acc := by
  intro exp
  induction exp with
  | nil => intro acc a; simp
  | cons e rest ih =>
    intro acc a
    rw [List.foldl_cons, ih, mem_dkeys_dinsert]
    constructor
    · rintro (h | h | rfl)
      · exact Or.inl (List.mem_cons_of_mem e h)
      · exact Or.inr h
      · exact Or.inl (List.mem_cons_self a rest)
    · rintro (h | h)
      · rcases List.mem_cons.mp h with rfl | h
        · exact Or.inr (Or.inr rfl)
        · exact Or.inl h
      · exact Or.inr (Or.inl h)

theorem nodup_dkeys_foldl_dinsert (f : κ → α) :
    ∀ (exp : List κ) (acc : List (κ × α)), (dkeys acc).Nodup →
      (dkeys (exp.foldl (fun acc attr => dinsert acc attr (f attr)) acc)).Nodup := by
  intro exp
  induction exp with
  | nil => intro acc h; exact h
  | cons e rest ih =>
    intro acc h
    rw [List.foldl_cons]
    exact ih _ (nodup_dkeys_dinsert h)

theorem foldl_dinsert_congr (f g : κ → α) :
    ∀ (exp : List κ) (acc : List (κ × α)), (∀ a ∈ exp, f a = g a) →
      exp.foldl (fun acc attr => dinsert acc attr (f attr)) acc =
        exp.foldl (fun acc attr => dinsert acc attr (g attr)) acc := by
  intro exp
  induction exp with
  | nil => intro acc _; rfl
  | cons e rest ih =>
    intro acc h
    rw [List.foldl_cons, List.foldl_cons, h e (List.mem_cons_self e rest),
      ih _ (fun a ha => h a (List.mem_cons_of_mem e ha))]

end DictLemmas

section BuildExpectedLemmas

theorem dget_buildExpected {data : PyDict} {expected : List String} {a : String}
    (h : a ∈ expected) :
    dget a (buildExpected data expected) = some (cleanExpected data a) := by
  unfold buildExpected
  rw [dget_foldl_dinsert, if_pos h]

theorem dget_buildExpected_of_not_mem {data : PyDict} {expected : List String} {a : String}
    (h : a ∉ expected) :
    dget a (buildExpected data expected) = none := by
  unfold buildExpected
  rw [dget_foldl_dinsert, if_neg h]
  rfl

theorem mem_dkeys_buildExpected {data : PyDict} {expected : List String} {a : String} :
    a ∈ dkeys (buildExpected data expected) ↔ a ∈ expected := by
  unfold buildExpected
  rw [mem_dkeys_foldl_dinsert]
  simp [dkeys]

theorem nodup_dkeys_buildExpected {data : PyDict} {expected : List String} :
    (dkeys (buildExpected data expected)).Nodup := by
  unfold buildExpected
  exact nodup_dkeys_foldl_dinsert _ _ _ (by simp [dkeys])

end BuildExpectedLemmas

section StripLemmas

theorem dropWhile_dropWhile (p : Char → Bool) (l : List Char) :
    List.dropWhile p (List.dropWhile p l) = List.dropWhile p l := by
  induction l with
  | nil => rfl
  | cons a t ih =>
    by_cases h : p a
    · rw [List.dropWhile_cons, if_pos h, ih]
    · rw [List.dropWhile_cons, if_neg h, List.dropWhile_cons, if_neg h]

theorem head?_dropWhile (p : Char → Bool) (l : List Char) (a : Char)
    (h : (List.dropWhile p l).head? = some a) : p a = false := by
  induction l with
  | nil => simp [List.dropWhile] at h
  | cons b t ih =>
    by_cases hb : p b
    · rw [List.dropWhile_cons, if_pos hb] at h
      exact ih h
    · rw [List.dropWhile_cons, if_neg hb] at h
      simp only [List.head?_cons, Option.some.injEq] at h
      subst h
      exact Bool.eq_false_iff.mpr hb

theorem dropWhile_eq_self_of_head (p : Char → Bool) (l : List Char)
    (h : ∀ a, l.head? = some a → p a = false) : List.dropWhile p l = l := by
  cases l with
  | nil => rfl
  | cons a t =>
    rw [List.dropWhile_cons, if_neg (by simp [h a rfl])]

theorem exists_append_dropWhile (p : Char → Bool) (l : List Char) :
    ∃ t, l = t ++ List.dropWhile p l := by
  induction l with
  | nil => exact ⟨[], rfl⟩
  | cons a t ih =>
    by_cases h : p a
    · obtain ⟨u, hu⟩ := ih
      refine ⟨a :: u, ?_⟩
      rw [List.dropWhile_cons, if_pos h, List.cons_append, ← hu]
    · exact ⟨[], by rw [List.dropWhile_cons, if_neg h]; rfl⟩

theorem getLast?_append_of_ne_nil' (l₁ l₂ : List Char) (h : l₂ ≠ []) :
    (l₁ ++ l₂).getLast? = l₂.getLast? := by
  induction l₁ with
  | nil => rfl
  | cons a t ih =>
    rw [List.cons_append, List.getLast?_cons, ih]
    cases l₂ with
    | nil => exact absurd rfl h
    | cons b u =>
      cases t with
      | nil => simp [List.getLast?_cons]
      | cons c v => simp [List.getLast?_cons]

theorem stripEnds_idem (p : Char → Bool) (l : List Char) :
    stripEnds p (stripEnds p l) = stripEnds p l := by
  have hBdrop : List.dropWhile p (List.dropWhile p (List.dropWhile p l).reverse) =
      List.dropWhile p (List.dropWhile p l).reverse := dropWhile_dropWhile p _
  have hF2 : List.dropWhile p (List.dropWhile p (List.dropWhile p l).reverse).reverse =
      (List.dropWhile p (List.dropWhile p l).reverse).reverse := by
    apply dropWhile_eq_self_of_head
    intro a ha
    rw [List.head?_reverse] at ha
    obtain ⟨t, ht⟩ := exists_append_dropWhile p (List.dropWhile p l).reverse
    have hBne : List.dropWhile p (List.dropWhile p l).reverse ≠ [] := by
      intro hB
      rw [hB] at ha
      simp at ha
    have hlast : (List.dropWhile p l).reverse.getLast? = some a := by
      rw [ht, getLast?_append_of_ne_nil' _ _ hBne, ha]
    rw [List.getLast?_reverse] at hlast
    exact head?_dropWhile p l a hlast
  show stripEnds p ((List.dropWhile p (List.dropWhile p l).reverse).reverse) = _
  unfold stripEnds
  rw [hF2, List.reverse_reverse, hBdrop]

theorem pyStrip_idem (s : String) : pyStrip (pyStrip s) = pyStrip s := by
  unfold pyStrip
  exact congrArg String.mk (stripEnds_idem pySpace s.data)

end StripLemmas

section CleanValueLemmas

theorem cleanValue_sentinel : cleanValue (.str sentinel) = .str sentinel := by
  decide

theorem cleanValue_idem (v : PyVal) : cleanValue (cleanValue v) = cleanValue v := by
  cases v with
  | int n => rfl
  | str s =>
    by_cases h : pyLower (pyStrip s) ∈ notFoundInputs
    · have h1 : cleanValue (.str s) = .str sentinel := by simp [cleanValue, h]
      rw [h1, cleanValue_sentinel]
    · have h1 : cleanValue (.str s) = .str (pyStrip s) := by simp [cleanValue, h]
      rw [h1]
      simp [cleanValue, pyStrip_idem, h]

theorem cleanValue_cleanExpected (data : PyDict) (a : String) :
    cleanValue (cleanExpected data a) = cleanExpected data a := by
  unfold cleanExpected
  cases dget a data with
  | none => exact cleanValue_sentinel
  | some v => exact cleanValue_idem v

end CleanValueLemmas

section AddExtrasLemmas

/-- The suffix of entries that the second loop of `_validate_extracted_data`
appends; used only to reason about `addExtras`. -/
def extraTail : PyDict → List (String × PyVal) → PyDict
  | _, [] => []
  | v, (k, val) :: rest =>
    if dhas k v then extraTail v rest
    else
      match val with
      | .str s =>
        if ¬ (PyVal.str (pyStrip s)) ∈ dvals v ∨ pyStrip s = sentinel then
          (k, PyVal.str (pyStrip s)) :: extraTail (v ++ [(k, .str (pyStrip s))]) rest
        else extraTail v rest
      | _ => extraTail v rest

theorem addExtras_append (l₁ l₂ : List (String × PyVal)) :
    ∀ v, addExtras v (l₁ ++ l₂) = addExtras (addExtras v l₁) l₂ := by
  induction l₁ with
  | nil => intro v; rfl
  | cons p rest ih =>
    intro v
    obtain ⟨k, val⟩ := p
    rw [List.cons_append]
    by_cases hk : dhas k v
    · simp only [addExtras, if_pos hk]
      exact ih v
    · cases val with
      | str s =>
        by_cases hc : ¬ (PyVal.str (pyStrip s)) ∈ dvals v ∨ pyStrip s = sentinel
        · simp only [addExtras, if_neg hk, if_pos hc]
          exact ih _
        · simp only [addExtras, if_neg hk, if_neg hc]
          exact ih v
      | int n =>
        simp only [addExtras, if_neg hk]
        exact ih v

theorem addExtras_eq_append (items : List (String × PyVal)) :
    ∀ v, addExtras v items = v ++ extraTail v items := by
  induction items with
  | nil => intro v; simp [addExtras, extraTail]
  | cons p rest ih =>
    intro v
    obtain ⟨k, val⟩ := p
    by_cases hk : dhas k v
    · simp only [addExtras, extraTail, if_pos hk]
      exact ih v
    · cases val with
      | str s =>
        by_cases hc : ¬ (PyVal.str (pyStrip s)) ∈ dvals v ∨ pyStrip s = sentinel
        · simp only [addExtras, extraTail, if_neg hk, if_pos hc]
          rw [ih]
          simp
        · simp only [addExtras, extraTail, if_neg hk, if_neg hc]
          exact ih v
      | int n =>
        simp only [addExtras, extraTail, if_neg hk]
        exact ih v

theorem addExtras_extraTail (items : List (String × PyVal)) :
    ∀ v, addExtras v (extraTail v items) = v ++ extraTail v items := by
  induction items with
  | nil => intro v; simp [extraTail, addExtras]
  | cons p rest ih =>
    intro v
    obtain ⟨k, val⟩ := p
    by_cases hk : dhas k v
    · simp only [extraTail, if_pos hk]
      exact ih v
    · cases val with
      | str s =>
        by_cases hc : ¬ (PyVal.str (pyStrip s)) ∈ dvals v ∨ pyStrip s = sentinel
        · simp only [extraTail, if_neg hk, if_pos hc]
          simp only [addExtras, if_neg hk, pyStrip_idem]
          rw [if_pos hc, ih]
          simp
        · simp only [extraTail, if_neg hk, if_neg hc]
          exact ih v
      | int n =>
        simp only [extraTail, if_neg hk]
        exact ih v

theorem mem_dkeys_addExtras (items : List (String × PyVal)) :
    ∀ v a, a ∈ dkeys (addExtras v items) →
      a ∈ dkeys v ∨ ∃ s, (a, PyVal.str s) ∈ items := by
  induction items with
  | nil => intro v a h; exact Or.inl h
  | cons p rest ih =>
    intro v a h
    obtain ⟨k, val⟩ := p
    by_cases hk : dhas k v
    · simp only [addExtras, if_pos hk] at h
      rcases ih v a h with h | ⟨s, hs⟩
      · exact Or.inl h
      · exact Or.inr ⟨s, List.mem_cons_of_mem _ hs⟩
    · cases val with
      | str s =>
        by_cases hc : ¬ (PyVal.str (pyStrip s)) ∈ dvals v ∨ pyStrip s = sentinel
        · simp only [addExtras, if_neg hk, if_pos hc] at h
          rcases ih _ a h with h | ⟨s', hs'⟩
          · simp only [dkeys, List.map_append, List.mem_append, List.map_cons,
              List.map_nil, List.mem_singleton] at h
            rcases h with h | rfl
            · exact Or.inl h
            · exact Or.inr ⟨s, List.mem_cons_self _ _⟩
          · exact Or.inr ⟨s', List.mem_cons_of_mem _ hs'⟩
        · simp only [addExtras, if_neg hk, if_neg hc] at h
          rcases ih v a h with h | ⟨s', hs'⟩
          · exact Or.inl h
          · exact Or.inr ⟨s', List.mem_cons_of_mem _ hs'⟩
      | int n =>
        simp only [addExtras, if_neg hk] at h
        rcases ih v a h with h | ⟨s', hs'⟩
        · exact Or.inl h
        · exact Or.inr ⟨s', List.mem_cons_of_mem _ hs'⟩

theorem nodup_dkeys_append_single {v : PyDict} {k : String} {x : PyVal}
    (h : (dkeys v).Nodup) (hk : k ∉ dkeys v) : (dkeys (v ++ [(k, x)])).Nodup := by
  simp only [dkeys, List.map_append, List.map_cons, List.map_nil]
  rw [List.nodup_append]
  refine ⟨h, List.nodup_singleton _, ?_⟩
  intro a ha hb
  simp only [List.mem_singleton] at hb
  subst hb
  exact hk ha

theorem nodup_dkeys_addExtras (items : List (String × PyVal)) :
    ∀ v, (dkeys v).Nodup → (dkeys (addExtras v items)).Nodup := by
  induction items with
  | nil => intro v h; exact h
  | cons p rest ih =>
    intro v h
    obtain ⟨k, val⟩ := p
    by_cases hk : dhas k v
    · simp only [addExtras, if_pos hk]
      exact ih v h
    · cases val with
      | str s =>
        by_cases hc : ¬ (PyVal.str (pyStrip s)) ∈ dvals v ∨ pyStrip s = sentinel
        · simp only [addExtras, if_neg hk, if_pos hc]
          exact ih _ (nodup_dkeys_append_single h
            (fun hm => hk (dhas_iff_mem_dkeys.mpr hm)))
        · simp only [addExtras, if_neg hk, if_neg hc]
          exact ih v h
      | int n =>
        simp only [addExtras, if_neg hk]
        exact ih v h

theorem dget_addExtras_of_mem {items : List (String × PyVal)} {v : PyDict} {a : String}
    (h : a ∈ dkeys v) : dget a (addExtras v items) = dget a v := by
  rw [addExtras_eq_append]
  exact dget_append_left h

theorem mem_dkeys_addExtras_left {items : List (String × PyVal)} {v : PyDict} {a : String}
    (h : a ∈ dkeys v) : a ∈ dkeys (addExtras v items) := by
  rw [addExtras_eq_append]
  simp only [dkeys, List.map_append, List.mem_append]
  exact Or.inl h

theorem addExtras_all_mem (items : List (String × PyVal)) :
    ∀ v, (∀ p ∈ items, dhas p.1 v = true) → addExtras v items = v := by
  induction items with
  | nil => intro v _; rfl
  | cons p rest ih =>
    intro v h
    obtain ⟨k, val⟩ := p
    have hk : dhas k v = true := h (k, val) (List.mem_cons_self _ _)
    simp only [addExtras, if_pos hk]
    exact ih v (fun q hq => h q (List.mem_cons_of_mem _ hq))

theorem value_eq_of_nodup_dkeys {d : PyDict} (h : (dkeys d).Nodup)
    {k : String} {v₁ v₂ : PyVal} (h1 : (k, v₁) ∈ d) (h2 : (k, v₂) ∈ d) : v₁ = v₂ := by
  induction d with
  | nil => cases h1
  | cons p t ih =>
    simp only [dkeys, List.map_cons, List.nodup_cons] at h
    rcases List.mem_cons.mp h1 with rfl | h1t
    · rcases List.mem_cons.mp h2 with he | h2t
      · exact congrArg Prod.snd he.symm
      · exact absurd (List.mem_map_of_mem Prod.fst h2t) h.1
    · rcases List.mem_cons.mp h2 with rfl | h2t
      · exact absurd (List.mem_map_of_mem Prod.fst h1t) h.1
      · exact ih h.2 h1t h2t

end AddExtrasLemmas

section ValidationClaims

/-- Claim C3: for every raw attribute dictionary and expected-attribute
list, `_validate_extracted_data` returns a mapping that contains every
expected name exactly once — a missing or blank/"n/a"/"not available"/
"none"/"unknown"-valued expected attribute is bound to the sentinel
`_Not found_` — and every other key of the result comes from the raw
data (zero or more extra attributes). -/
theorem validate_expected_completeness (data : PyDict) (expected : List String) :
    (∀ a ∈ expected,
      (dkeys (validateExtractedData data expected)).count a = 1 ∧
      (dget a data = none →
        dget a (validateExtractedData data expected) = some (.str sentinel)) ∧
      (∀ s, dget a data = some (.str s) → pyLower (pyStrip s) ∈ notFoundInputs →
        dget a (validateExtractedData data expected) = some (.str sentinel))) ∧
    (∀ k ∈ dkeys (validateExtractedData data expected), k ∈ expected ∨ k ∈ dkeys data) := by
  constructor
  · intro a ha
    have hmemB : a ∈ dkeys (buildExpected data expected) :=
      mem_dkeys_buildExpected.mpr ha
    have hget : dget a (validateExtractedData data expected) =
        some (cleanExpected data a) := by
      unfold validateExtractedData
      rw [dget_addExtras_of_mem hmemB, dget_buildExpected ha]
    refine ⟨?_, ?_, ?_⟩
    · exact List.count_eq_one_of_mem
        (nodup_dkeys_addExtras data _ nodup_dkeys_buildExpected)
        (mem_dkeys_addExtras_left hmemB)
    · intro hnone
      rw [hget]
      unfold cleanExpected
      rw [hnone]
    · intro s hs hlow
      rw [hget]
      unfold cleanExpected
      rw [hs]
      simp [cleanValue, hlow]
  · intro k hk
    unfold validateExtractedData at hk
    rcases mem_dkeys_addExtras data _ k hk with h | ⟨s, hs⟩
    · exact Or.inl (mem_dkeys_buildExpected.mp h)
    · exact Or.inr (List.mem_map_of_mem Prod.fst hs)

/-- Witness for C3 at a concrete input: `Size` is missing and `Color` is
blank-valued, both come back bound to the sentinel, and `Color` appears
exactly once. -/
theorem validate_expected_completeness_witness :
    (dkeys (validateExtractedData
        [("Brand", .str "Apple"), ("Color", .str " n/a ")]
        ["Brand", "Color", "Size"])).count "Color" = 1 ∧
    dget "Size" (validateExtractedData
        [("Brand", .str "Apple"), ("Color", .str " n/a ")]
        ["Brand", "Color", "Size"]) = some (.str sentinel) ∧
    dget "Color" (validateExtractedData
        [("Brand", .str "Apple"), ("Color", .str " n/a ")]
        ["Brand", "Color", "Size"]) = some (.str sentinel) := by
  refine ⟨?_, ?_, ?_⟩
  · exact ((validate_expected_completeness
      [("Brand", .str "Apple"), ("Color", .str " n/a ")]
      ["Brand", "Color", "Size"]).1 "Color" (by decide)).1
  · exact ((validate_expected_completeness
      [("Brand", .str "Apple"), ("Color", .str " n/a ")]
      ["Brand", "Color", "Size"]).1 "Size" (by decide)).2.1 (by decide)
  · exact ((validate_expected_completeness
      [("Brand", .str "Apple"), ("Color", .str " n/a ")]
      ["Brand", "Color", "Size"]).1 "Color" (by decide)).2.2 " n/a " (by decide) (by decide)

/-- Claim C8: attribute validation is idempotent — validating an
already-validated mapping changes no key and no value. -/
theorem validate_idempotent (data : PyDict) (expected : List String) :
    validateExtractedData (validateExtractedData data expected) expected =
      validateExtractedData data expected := by
  have hclean : ∀ a ∈ expected,
      cleanExpected (addExtras (buildExpected data expected) data) a =
        cleanExpected data a := by
    intro a ha
    have hmemB : a ∈ dkeys (buildExpected data expected) :=
      mem_dkeys_buildExpected.mpr ha
    have hget : dget a (addExtras (buildExpected data expected) data) =
        some (cleanExpected data a) := by
      rw [dget_addExtras_of_mem hmemB, dget_buildExpected ha]
    show (match dget a (addExtras (buildExpected data expected) data) with
      | some v => cleanValue v
      | none => PyVal.str sentinel) = cleanExpected data a
    rw [hget]
    exact cleanValue_cleanExpected data a
  have hBE : buildExpected (addExtras (buildExpected data expected) data) expected =
      buildExpected data expected := by
    unfold buildExpected
    exact foldl_dinsert_congr _ _ expected [] hclean
  show addExtras
      (buildExpected (addExtras (buildExpected data expected) data) expected)
      (addExtras (buildExpected data expected) data) =
    addExtras (buildExpected data expected) data
  rw [hBE]
  rw [addExtras_eq_append data (buildExpected data expected),
    addExtras_append (buildExpected data expected) _ (buildExpected data expected),
    addExtras_all_mem (buildExpected data expected) (buildExpected data expected)
      (fun p hp => dhas_iff_mem_dkeys.mpr (List.mem_map_of_mem Prod.fst hp)),
    addExtras_extraTail data (buildExpected data expected)]

/-- Claim C7: during validation, a model attribute under a key outside
the expected list is kept under its own key unless its (stripped) value
duplicates a value already recorded at that point, in which case it is
dropped — unless the value is the sentinel, in which case it is still
added; already recorded entries are never replaced. -/
theorem validate_extras_dedup (data : PyDict) (expected : List String)
    (d₁ d₂ : List (String × PyVal)) (k : String) (s : String)
    (hd : data = d₁ ++ (k, .str s) :: d₂)
    (hnd : (dkeys data).Nodup)
    (hke : k ∉ expected) :
    ((¬ (PyVal.str (pyStrip s)) ∈ dvals (addExtras (buildExpected data expected) d₁) ∨
        pyStrip s = sentinel) →
      dget k (validateExtractedData data expected) = some (.str (pyStrip s))) ∧
    ((PyVal.str (pyStrip s)) ∈ dvals (addExtras (buildExpected data expected) d₁) ∧
        pyStrip s ≠ sentinel →
      ¬ k ∈ dkeys (validateExtractedData data expected)) ∧
    (∀ a ∈ dkeys (addExtras (buildExpected data expected) d₁),
      dget a (validateExtractedData data expected) =
        dget a (addExtras (buildExpected data expected) d₁)) := by
  have hksplit : k ∉ dkeys d₁ ∧ k ∉ dkeys d₂ := by
    rw [hd] at hnd
    simp only [dkeys, List.map_append, List.map_cons] at hnd
    rw [List.nodup_append] at hnd
    obtain ⟨h1, h2, hdisj⟩ := hnd
    rw [List.nodup_cons] at h2
    exact ⟨fun hm => hdisj hm (List.mem_cons_self _ _), h2.1⟩
  have hkB : k ∉ dkeys (buildExpected data expected) := by
    intro h
    exact hke (mem_dkeys_buildExpected.mp h)
  have hkV : k ∉ dkeys (addExtras (buildExpected data expected) d₁) := by
    intro h
    rcases mem_dkeys_addExtras d₁ _ k h with h | ⟨s', hs'⟩
    · exact hkB h
    · exact hksplit.1 (List.mem_map_of_mem Prod.fst hs')
  have hkVb : ¬ dhas k (addExtras (buildExpected data expected) d₁) = true :=
    fun hh => hkV (dhas_iff_mem_dkeys.mp hh)
  have hsplit : validateExtractedData data expected =
      addExtras (addExtras (buildExpected data expected) d₁) ((k, .str s) :: d₂) := by
    unfold validateExtractedData
    conv_lhs => rw [hd]
    rw [hd, addExtras_append]
  refine ⟨?_, ?_, ?_⟩
  · intro hc
    rw [hsplit]
    simp only [addExtras, if_neg hkVb]
    rw [if_pos hc]
    have hmem : k ∈ dkeys (addExtras (buildExpected data expected) d₁ ++
        [(k, PyVal.str (pyStrip s))]) := by
      simp [dkeys]
    rw [dget_addExtras_of_mem hmem, dget_append_right hkV]
    simp [dget]
  · intro hc
    rw [hsplit]
    simp only [addExtras, if_neg hkVb]
    rw [if_neg (by push_neg; exact ⟨hc.1, hc.2⟩)]
    intro hk
    rcases mem_dkeys_addExtras d₂ _ k hk with h | ⟨s', hs'⟩
    · exact hkV h
    · exact hksplit.2 (List.mem_map_of_mem Prod.fst hs')
  · intro a ha
    rw [hsplit]
    simp only [addExtras, if_neg hkVb]
    by_cases hc : ¬ (PyVal.str (pyStrip s)) ∈
        dvals (addExtras (buildExpected data expected) d₁) ∨ pyStrip s = sentinel
    · rw [if_pos hc]
      have hmem : a ∈ dkeys (addExtras (buildExpected data expected) d₁ ++
          [(k, PyVal.str (pyStrip s))]) := by
        simp only [dkeys, List.map_append, List.mem_append]
        exact Or.inl ha
      rw [dget_addExtras_of_mem hmem, dget_append_left ha]
    · rw [if_neg hc]
      exact dget_addExtras_of_mem ha

/-- Witness for C7 at concrete inputs: the stripped duplicate `" Apple "`
of the recorded `"Apple"` is dropped, while a duplicated sentinel value is
still added under its own key. -/
theorem validate_extras_dedup_witness :
    (¬ "Extra" ∈ dkeys (validateExtractedData
        [("Brand", .str "Apple"), ("Extra", .str " Apple ")] ["Brand"])) ∧
    dget "Note" (validateExtractedData
        [("Color", .str "n/a"), ("Note", .str "_Not found_")] ["Color"]) =
      some (.str sentinel) := by
  constructor
  · exact (validate_extras_dedup
      [("Brand", .str "Apple"), ("Extra", .str " Apple ")] ["Brand"]
      [("Brand", .str "Apple")] [] "Extra" " Apple " rfl (by decide) (by decide)).2.1
      (by decide)
  · have h := (validate_extras_dedup
      [("Color", .str "n/a"), ("Note", .str "_Not found_")] ["Color"]
      [("Color", .str "n/a")] [] "Note" "_Not found_" rfl (by decide) (by decide)).1
      (by decide)
    simpa using h

/-- Claim C10: validation only ever adds string values under non-expected
keys — an extra attribute with a non-string value is silently omitted,
while a non-string value under an expected key is kept unchanged, with no
trimming and no sentinel normalization. -/
theorem validate_nonstring_values (data : PyDict) (expected : List String)
    (hnd : (dkeys data).Nodup) :
    (∀ k n, k ∉ expected → (k, PyVal.int n) ∈ data →
      ¬ k ∈ dkeys (validateExtractedData data expected)) ∧
    (∀ a n, a ∈ expected → dget a data = some (.int n) →
      dget a (validateExtractedData data expected) = some (.int n)) := by
  constructor
  · intro k n hke hmem hk
    unfold validateExtractedData at hk
    rcases mem_dkeys_addExtras data _ k hk with h | ⟨s, hs⟩
    · exact hke (mem_dkeys_buildExpected.mp h)
    · exact absurd (value_eq_of_nodup_dkeys hnd hs hmem) (by simp)
  · intro a n ha hget
    have hmemB : a ∈ dkeys (buildExpected data expected) :=
      mem_dkeys_buildExpected.mpr ha
    unfold validateExtractedData
    rw [dget_addExtras_of_mem hmemB, dget_buildExpected ha]
    unfold cleanExpected
    rw [hget]
    rfl

/-- Witness for C10 at a concrete input: the non-string extra is dropped
and the non-string expected value survives untouched. -/
theorem validate_nonstring_values_witness :
    (¬ "Extra" ∈ dkeys (validateExtractedData
        [("Brand", .int 5), ("Extra", .int 7)] ["Brand"])) ∧
    dget "Brand" (validateExtractedData
        [("Brand", .int 5), ("Extra", .int 7)] ["Brand"]) = some (.int 5) := by
  constructor
  · exact (validate_nonstring_values [("Brand", .int 5), ("Extra", .int 7)]
      ["Brand"] (by decide)).1 "Extra" 7 (by decide) (by decide)
  · exact (validate_nonstring_values [("Brand", .int 5), ("Extra", .int 7)]
      ["Brand"] (by decide)).2 "Brand" 5 (by decide) (by decide)

end ValidationClaims

/-!  Confidence scoring: `_calculate_confidence` (src/deepseek_api.py:314-399,
identically src/ai_api.py:182-241).  Python floats are modelled as exact
rationals.  The float comparison `found_attrs >= total_attrs * 0.6` (and the
0.8/0.9 completeness thresholds) agrees with the exact rational comparison
for every attribute count below 2^53, so the model is faithful there.  -/

/-- The values `_calculate_confidence` counts as not found:
`['_Not found_', 'Unknown', 'N/A', '']` (src/deepseek_api.py:317). -/
def notFoundValues : List String :=
  [sentinel, "Unknown", "N/A", ""]

/-- `not_found_attrs` (src/deepseek_api.py:317). -/
def notFoundCount (attrs : List (String × PyVal)) : Nat :=
  attrs.countP (fun kv => decide (pyStr kv.2 ∈ notFoundValues))

/-- `found_attrs = total_attrs - not_found_attrs`
(src/deepseek_api.py:323). -/
def foundAttrs (attrs : List (String × PyVal)) : Nat :=
  attrs.length - notFoundCount attrs

/-- `base_confidence = found_attrs / total_attrs`
(src/deepseek_api.py:324). -/
def baseConfidence (attrs : List (String × PyVal)) : ℚ :=
  (foundAttrs attrs : ℚ) / (attrs.length : ℚ)

/-- `critical_attrs = ['Brand', 'Model', 'Product Type']`
(src/deepseek_api.py:330). -/
def criticalAttrs : List String :=
  ["Brand", "Model", "Product Type"]

/-- Whether one critical attribute name matches some attribute key
(case-insensitive substring) carrying a value outside the not-found set
(src/deepseek_api.py:332-336; `any(crit.lower() in k.lower() for crit in
[attr])` is just `attr.lower() in k.lower()`). -/
def criticalHit (attrs : List (String × PyVal)) (attr : String) : Bool :=
  attrs.any (fun kv =>
    pyIn (pyLower attr) (pyLower kv.1) && !(decide (pyStr kv.2 ∈ notFoundValues)))

/-- `critical_found` (src/deepseek_api.py:331-336). -/
def criticalFound (attrs : List (String × PyVal)) : Nat :=
  criticalAttrs.countP (fun attr => criticalHit attrs attr)

/-- The critical-attributes bonus (src/deepseek_api.py:338-343). -/
def criticalBoost (attrs : List (String × PyVal)) : ℚ :=
  if criticalFound attrs ≥ 3 then 30/100
  else if criticalFound attrs ≥ 2 then 20/100
  else if criticalFound attrs ≥ 1 then 10/100
  else 0

/-- `technical_indicators` (src/deepseek_api.py:346). -/
def technicalIndicators : List String :=
  ["GB", "MHz", "inches", "W", "Hz", "mAh", "MP", "dB", "mm", "kg"]

/-- `detailed_attrs` (src/deepseek_api.py:347-350). -/
def detailedCount (attrs : List (String × PyVal)) : Nat :=
  attrs.countP (fun kv => technicalIndicators.any (fun ind => pyIn ind (pyStr kv.2)))

/-- The technical-detail bonus (src/deepseek_api.py:352-357). -/
def technicalBoost (attrs : List (String × PyVal)) : ℚ :=
  if detailedCount attrs ≥ 3 then 20/100
  else if detailedCount attrs ≥ 2 then 15/100
  else if detailedCount attrs ≥ 1 then 10/100
  else 0

/-- `specific_patterns` after `pattern.replace('[0-9]', '\\d')`
(src/deepseek_api.py:360-363): the code substring-checks these literal
strings, so the backslash-d patterns never match ordinary values and only
`Pro`, `Max`, `Plus` can hit. -/
def specificPatterns : List String :=
  ["v\\d", "\\d+GB", "\\d+MHz", "\\d+\"", "\\d+W", "Pro", "Max", "Plus"]

/-- `specific_count` (src/deepseek_api.py:361-364). -/
def specificCount (attrs : List (String × PyVal)) : Nat :=
  attrs.countP (fun kv => specificPatterns.any (fun pat => pyIn pat (pyStr kv.2)))

/-- The specific-value bonus (src/deepseek_api.py:366-369). -/
def specificBoost (attrs : List (String × PyVal)) : ℚ :=
  if specificCount attrs ≥ 2 then 15/100
  else if specificCount attrs ≥ 1 then 10/100
  else 0

/-- `brand_value`: the lowercased value of the first `brand`-named
attribute outside the not-found set (src/deepseek_api.py:373-377). -/
def brandValue (attrs : List (String × PyVal)) : Option String :=
  (attrs.find? (fun kv =>
    pyIn "brand" (pyLower kv.1) && !(decide (pyStr kv.2 ∈ notFoundValues)))).map
    (fun kv => pyLower (pyStr kv.2))

/-- `consistent_mentions` (src/deepseek_api.py:380). -/
def consistentMentions (attrs : List (String × PyVal)) (bv : String) : Nat :=
  attrs.countP (fun kv => pyIn bv (pyLower (pyStr kv.2)))

/-- The brand-consistency bonus (src/deepseek_api.py:372-382). -/
def brandBoost (attrs : List (String × PyVal)) : ℚ :=
  match brandValue attrs with
  | some bv => if consistentMentions attrs bv ≥ 2 then 10/100 else 0
  | none => 0

/-- The completeness bonus (src/deepseek_api.py:385-389). -/
def completenessBoost (attrs : List (String × PyVal)) : ℚ :=
  if baseConfidence attrs ≥ 9/10 then 5/100
  else if baseConfidence attrs ≥ 8/10 then 3/100
  else 0

/-- `confidence_boosters` accumulated over the five bonuses
(src/deepseek_api.py:327-389). -/
def confidenceBoosters (attrs : List (String × PyVal)) : ℚ :=
  criticalBoost attrs + technicalBoost attrs + specificBoost attrs +
    brandBoost attrs + completenessBoost attrs

/-- Python `round(x, 2)` over the rational model (ties rounded up rather
than to even, which only differs on exact hundredth-halves and affects none
of the proved bounds). -/
def round2 (q : ℚ) : ℚ :=
  (round (100 * q) : ℚ) / 100

/-- `DeepSeekAPI._calculate_confidence` (src/deepseek_api.py:314-399,
identically src/ai_api.py:182-241). -/
def calculateConfidence (attrs : List (String × PyVal)) : ℚ :=
  if attrs.length = 0 then 0
  else
    round2
      (if criticalFound attrs ≥ 2 ∧
          (foundAttrs attrs : ℚ) ≥ (attrs.length : ℚ) * (6/10) then
        max (min (baseConfidence attrs + confidenceBoosters attrs) 1) (9/10)
      else
        min (baseConfidence attrs + confidenceBoosters attrs) 1)

section ConfidenceLemmas

theorem round_le_round {x y : ℚ} (h : x ≤ y) : round x ≤ round y := by
  rw [round_eq, round_eq]
  exact Int.floor_le_floor (by linarith)

theorem round2_le_round2 {x y : ℚ} (h : x ≤ y) : round2 x ≤ round2 y := by
  unfold round2
  have := round_le_round (by linarith : 100 * x ≤ 100 * y)
  have hc : ((round (100 * x) : ℤ) : ℚ) ≤ ((round (100 * y) : ℤ) : ℚ) :=
    Int.cast_le.mpr this
  linarith

theorem round2_zero : round2 0 = 0 := by
  unfold round2
  norm_num

theorem round2_one : round2 1 = 1 := by
  unfold round2
  norm_num

theorem round2_nine_tenths : round2 (9/10) = 9/10 := by
  unfold round2
  norm_num

theorem criticalBoost_nonneg (attrs : List (String × PyVal)) : 0 ≤ criticalBoost attrs := by
  unfold criticalBoost
  split_ifs <;> norm_num

theorem technicalBoost_nonneg (attrs : List (String × PyVal)) : 0 ≤ technicalBoost attrs := by
  unfold technicalBoost
  split_ifs <;> norm_num

theorem specificBoost_nonneg (attrs : List (String × PyVal)) : 0 ≤ specificBoost attrs := by
  unfold specificBoost
  split_ifs <;> norm_num

theorem brandBoost_nonneg (attrs : List (String × PyVal)) : 0 ≤ brandBoost attrs := by
  unfold brandBoost
  cases brandValue attrs with
  | none => norm_num
  | some bv =>
    show (0 : ℚ) ≤ if consistentMentions attrs bv ≥ 2 then 10/100 else 0
    split_ifs <;> norm_num

theorem completenessBoost_nonneg (attrs : List (String × PyVal)) :
    0 ≤ completenessBoost attrs := by
  unfold completenessBoost
  split_ifs <;> norm_num

theorem confidenceBoosters_nonneg (attrs : List (String × PyVal)) :
    0 ≤ confidenceBoosters attrs := by
  unfold confidenceBoosters
  have h1 := criticalBoost_nonneg attrs
  have h2 := technicalBoost_nonneg attrs
  have h3 := specificBoost_nonneg attrs
  have h4 := brandBoost_nonneg attrs
  have h5 := completenessBoost_nonneg attrs
  linarith

theorem baseConfidence_nonneg (attrs : List (String × PyVal)) :
    0 ≤ baseConfidence attrs := by
  unfold baseConfidence
  positivity

theorem criticalFound_nil : criticalFound [] = 0 := by
  decide

end ConfidenceLemmas

/-- Claim C1 (amended): the confidence score always lies in `[0, 1]`; a
non-empty all-sentinel mapping scores exactly `0`; and whenever at least 2
of the critical names `{Brand, Model, Product Type}` match an attribute key
(case-insensitive substring) with a value outside the not-found set
`{'_Not found_', 'Unknown', 'N/A', ''}` and at least 60% of all attribute
values lie outside that set, the score is at least `0.90`. -/
theorem confidence_bounds_and_floor :
    (∀ attrs : List (String × PyVal),
      0 ≤ calculateConfidence attrs ∧ calculateConfidence attrs ≤ 1) ∧
    (∀ attrs : List (String × PyVal), attrs ≠ [] →
      (∀ p ∈ attrs, p.2 = PyVal.str sentinel) → calculateConfidence attrs = 0) ∧
    (∀ attrs : List (String × PyVal), criticalFound attrs ≥ 2 →
      (foundAttrs attrs : ℚ) ≥ (attrs.length : ℚ) * (6/10) →
      9/10 ≤ calculateConfidence attrs) := by
  refine ⟨?_, ?_, ?_⟩
  · intro attrs
    unfold calculateConfidence
    by_cases h0 : attrs.length = 0
    · rw [if_pos h0]
      norm_num
    · rw [if_neg h0]
      have hbase := baseConfidence_nonneg attrs
      have hboost := confidenceBoosters_nonneg attrs
      have hmin0 : (0 : ℚ) ≤ min (baseConfidence attrs + confidenceBoosters attrs) 1 :=
        le_min (by linarith) (by norm_num)
      have hmin1 : min (baseConfidence attrs + confidenceBoosters attrs) 1 ≤ 1 :=
        min_le_right _ _
      constructor
      · split_ifs with hcond
        · calc (0 : ℚ) = round2 0 := round2_zero.symm
            _ ≤ _ := round2_le_round2 (le_trans hmin0 (le_max_left _ _))
        · calc (0 : ℚ) = round2 0 := round2_zero.symm
            _ ≤ _ := round2_le_round2 hmin0
      · split_ifs with hcond
        · calc round2 _ ≤ round2 1 :=
              round2_le_round2 (max_le hmin1 (by norm_num))
            _ = 1 := round2_one
        · calc round2 _ ≤ round2 1 := round2_le_round2 hmin1
            _ = 1 := round2_one
  · intro attrs hne hsent
    have hval : ∀ kv ∈ attrs, pyStr kv.2 = sentinel := by
      intro kv hkv
      rw [hsent kv hkv]
      rfl
    have hnf : notFoundCount attrs = attrs.length := by
      unfold notFoundCount
      rw [List.countP_eq_length]
      intro kv hkv
      rw [hval kv hkv]
      decide
    have hfound : foundAttrs attrs = 0 := by
      unfold foundAttrs
      rw [hnf, Nat.sub_self]
    have hbase : baseConfidence attrs = 0 := by
      unfold baseConfidence
      rw [hfound]
      norm_num
    have hcf : criticalFound attrs = 0 := by
      unfold criticalFound
      rw [List.countP_eq_zero]
      intro attr _
      unfold criticalHit
      rw [Bool.not_eq_true, List.any_eq_false]
      intro kv hkv
      rw [hval kv hkv, show (decide (sentinel ∈ notFoundValues)) = true from by decide]
      simp
    have hdet : detailedCount attrs = 0 := by
      unfold detailedCount
      rw [List.countP_eq_zero]
      intro kv hkv
      rw [hval kv hkv]
      decide
    have hspec : specificCount attrs = 0 := by
      unfold specificCount
      rw [List.countP_eq_zero]
      intro kv hkv
      rw [hval kv hkv]
      decide
    have hfindb : attrs.find? (fun kv => pyIn "brand" (pyLower kv.1) &&
        !(decide (pyStr kv.2 ∈ notFoundValues))) = none := by
      rw [List.find?_eq_none]
      intro kv hkv
      rw [hval kv hkv, show (decide (sentinel ∈ notFoundValues)) = true from by decide]
      simp
    have hbv : brandValue attrs = none := by
      unfold brandValue
      rw [hfindb]
      rfl
    have hb1 : criticalBoost attrs = 0 := by
      unfold criticalBoost
      rw [hcf]
      norm_num
    have hb2 : technicalBoost attrs = 0 := by
      unfold technicalBoost
      rw [hdet]
      norm_num
    have hb3 : specificBoost attrs = 0 := by
      unfold specificBoost
      rw [hspec]
      norm_num
    have hb4 : brandBoost attrs = 0 := by
      unfold brandBoost
      rw [hbv]
    have hb5 : completenessBoost attrs = 0 := by
      unfold completenessBoost
      rw [hbase]
      norm_num
    have hboost : confidenceBoosters attrs = 0 := by
      unfold confidenceBoosters
      rw [hb1, hb2, hb3, hb4, hb5]
      norm_num
    unfold calculateConfidence
    rw [if_neg (fun h => hne (List.length_eq_zero.mp h))]
    rw [if_neg (by rw [hcf]; rintro ⟨h2, -⟩; omega)]
    rw [hbase, hboost]
    norm_num
    exact round2_zero
  · intro attrs hcf hfound
    unfold calculateConfidence
    have h0 : ¬ attrs.length = 0 := by
      intro h0
      rw [List.length_eq_zero.mp h0, criticalFound_nil] at hcf
      omega
    rw [if_neg h0, if_pos ⟨hcf, hfound⟩]
    calc (9/10 : ℚ) = round2 (9/10) := round2_nine_tenths.symm
      _ ≤ _ := round2_le_round2 (le_max_right _ _)

/-- The concrete mapping refuting claim C1 as stated: two critical fields
with non-sentinel values and 100% of values distinct from the sentinel,
yet the not-found set also counts `Unknown`, `N/A` and `''`, so the floor
rule does not fire. -/
def confidenceCex : List (String × PyVal) :=
  [("Brand", .str "Apple"), ("Model", .str "X1"), ("Color", .str "Unknown"),
    ("Size", .str "N/A"), ("Weight", .str "")]

/-- Counterexample to claim C1 as stated: in `confidenceCex` at least 2
critical names match a key with a value different from the sentinel
`_Not found_`, and all 5 of 5 values differ from the sentinel (≥ 60%), yet
the computed confidence is `0.6 < 0.90` — the code's floor rule counts
`Unknown`/`N/A`/`''` as not found, the claim's "non-sentinel" reading does
not. -/
theorem confidence_floor_counterexample :
    (criticalAttrs.countP (fun crit => confidenceCex.any (fun kv =>
        pyIn (pyLower crit) (pyLower kv.1) &&
          !(decide (kv.2 = PyVal.str sentinel)))) ≥ 2) ∧
    5 * confidenceCex.countP (fun kv => !(decide (kv.2 = PyVal.str sentinel))) ≥
      3 * confidenceCex.length ∧
    calculateConfidence confidenceCex = 6/10 ∧
    calculateConfidence confidenceCex < 9/10 := by
  have h1 : criticalFound confidenceCex = 2 := by decide
  have h4 : brandValue confidenceCex = some "apple" := by decide
  have h5 : consistentMentions confidenceCex "apple" = 1 := by decide
  have h7 : foundAttrs confidenceCex = 2 := by decide
  have hlen : confidenceCex.length = 5 := by decide
  have hbase : baseConfidence confidenceCex = 2/5 := by
    unfold baseConfidence
    rw [h7, hlen]
    norm_num
  have hb1 : criticalBoost confidenceCex = 20/100 := by
    unfold criticalBoost
    rw [h1]
    norm_num
  have hb2 : technicalBoost confidenceCex = 0 := by
    unfold technicalBoost
    rw [show detailedCount confidenceCex = 0 from by decide]
    norm_num
  have hb3 : specificBoost confidenceCex = 0 := by
    unfold specificBoost
    rw [show specificCount confidenceCex = 0 from by decide]
    norm_num
  have hb4 : brandBoost confidenceCex = 0 := by
    unfold brandBoost
    rw [h4]
    show (if consistentMentions confidenceCex "apple" ≥ 2 then 10/100 else 0 : ℚ) = 0
    rw [h5]
    norm_num
  have hb5 : completenessBoost confidenceCex = 0 := by
    unfold completenessBoost
    rw [hbase]
    norm_num
  have hboost : confidenceBoosters confidenceCex = 20/100 := by
    unfold confidenceBoosters
    rw [hb1, hb2, hb3, hb4, hb5]
    norm_num
  have hcond : ¬ (criticalFound confidenceCex ≥ 2 ∧
      (foundAttrs confidenceCex : ℚ) ≥ (confidenceCex.length : ℚ) * (6/10)) := by
    rw [h1, h7, hlen]
    push_cast
    norm_num
  have hconf : calculateConfidence confidenceCex = 6/10 := by
    unfold calculateConfidence
    rw [if_neg (by rw [hlen]; omega), if_neg hcond, hbase, hboost]
    rw [show (2/5 + 20/100 : ℚ) = 6/10 from by norm_num,
      show min (6/10 : ℚ) 1 = 6/10 from by norm_num]
    unfold round2
    norm_num
  exact ⟨by decide, by decide, hconf, by rw [hconf]; norm_num⟩

/-- Witness for the amended C1 at concrete inputs: bounds at a mixed
mapping, zero at an all-sentinel mapping, and the 0.90 floor at a mapping
with Brand and Model found and 2 of 3 values outside the not-found set. -/
theorem confidence_bounds_and_floor_witness :
    (0 ≤ calculateConfidence confidenceCex ∧ calculateConfidence confidenceCex ≤ 1) ∧
    calculateConfidence [("A", PyVal.str sentinel)] = 0 ∧
    9/10 ≤ calculateConfidence
      [("Brand", .str "Apple"), ("Model", .str "iPhone 13 Pro"),
        ("Color", .str "_Not found_")] := by
  refine ⟨confidence_bounds_and_floor.1 confidenceCex, ?_, ?_⟩
  · exact confidence_bounds_and_floor.2.1 [("A", PyVal.str sentinel)]
      (by decide) (by decide)
  · refine confidence_bounds_and_floor.2.2
      [("Brand", .str "Apple"), ("Model", .str "iPhone 13 Pro"),
        ("Color", .str "_Not found_")]
      (by decide) ?_
    rw [show foundAttrs [("Brand", .str "Apple"), ("Model", .str "iPhone 13 Pro"),
        ("Color", .str "_Not found_")] = 2 from by decide,
      show List.length [("Brand", PyVal.str "Apple"),
        ("Model", PyVal.str "iPhone 13 Pro"),
        ("Color", PyVal.str "_Not found_")] = 3 from by decide]
    push_cast
    norm_num

/-!  The conversation-session machine: `ConversationState`, `SessionManager`
(src/session_manager.py) over `JSONStorage` (src/json_storage.py), driven by
`BotHandlers` (src/bot_handlers.py).  The stores become explicit state; the
external extraction call's response and the timestamp-derived product id are
parameters of the step.  `updated_at`, `status` and `created_at` fields carry
no control flow and are not modelled.  -/

/-- `ConversationState` (src/session_manager.py:8-17). -/
inductive ConversationState where
  | idle
  | categorySelection
  | subcategorySelection
  | productInput
  | processingProduct
  | confirmation
  | descriptionInput
  | priceInput
  | completed
deriving DecidableEq, Repr

/-- The extraction-result dict stored in a session (`extracted_data`),
restricted to the entries the session flow reads: the optional
`category`/`subcategory`/`product_name` echoes, the `attributes` mapping
(`get('attributes', \x7b\x7d)` makes an absent entry the empty mapping) and
the `listing.description` slot filled by `set_description`. -/
structure ExtractedData where
  success : Bool
  category : Option String
  subcategory : Option String
  productName : Option String
  attributes : PyDict
  listingDescription : Option String
deriving DecidableEq, Repr

/-- The all-absent extraction dict, Python `\x7b\x7d`. -/
def defaultExtractedData : ExtractedData :=
  ⟨false, none, none, none, [], none⟩

/-- One user session record of `users.json`'s `sessions` map
(src/json_storage.py:115-146).  A record absent from the map is the
no-session state; every writer sets `state`, so the `idle` default of a
fresh record is never observable. -/
structure Session where
  state : ConversationState
  category : Option String
  subcategory : Option String
  productName : Option String
  extractedData : Option ExtractedData
deriving DecidableEq, Repr

/-- A freshly created, not-yet-written session record (Python `\x7b\x7d`). -/
def emptySession : Session :=
  ⟨.idle, none, none, none, none⟩

/-- A persisted listing record (src/json_storage.py:59-91). -/
structure Listing where
  id : Nat
  userId : Nat
  username : String
  category : String
  subcategory : String
  productName : String
  attributes : PyDict
  price : ℚ
deriving DecidableEq, Repr

/-- The `sessions` map of `users.json`, keyed by user id. -/
abbrev Sessions := List (Nat × Session)

/-- The mutable state of the storage layer: the session map plus the
listings directory. -/
structure GlobalState where
  sessions : Sessions
  listings : List Listing
deriving DecidableEq, Repr

/-- Fresh storage: `\x7b"sessions": \x7b\x7d, "logs": []\x7d` and an empty
listings directory (src/json_storage.py:24-31). -/
def initialState : GlobalState :=
  ⟨[], []⟩

/-- `JSONStorage.get_user_session` (src/json_storage.py:93-113). -/
def getUserSession (ss : Sessions) (uid : Nat) : Option Session :=
  dget uid ss

/-- `JSONStorage.update_user_session` (src/json_storage.py:115-146):
get-or-create the record, apply the provided field updates, write back. -/
def updateUserSession (ss : Sessions) (uid : Nat) (f : Session → Session) : Sessions :=
  dinsert ss uid (f ((dget uid ss).getD emptySession))

/-- `JSONStorage.clear_user_session` (src/json_storage.py:148-159). -/
def clearUserSession (ss : Sessions) (uid : Nat) : Sessions :=
  derase ss uid

/-- One subcategory of the catalog (name plus expected attributes). -/
structure Subcategory where
  name : String
  attributes : List String
deriving DecidableEq, Repr

/-- One category of `shop_categories.json`. -/
structure Category where
  category : String
  subcategories : List Subcategory
deriving DecidableEq, Repr

/-- The loaded category catalog (`shop_categories` list). -/
abbrev Catalog := List Category

/-- `SessionManager.get_category_by_name` (src/session_manager.py:37-42):
case-insensitive exact match. -/
def getCategoryByName (cats : Catalog) (name : String) : Option Category :=
  cats.find? (fun c => decide (pyLower c.category = pyLower name))

/-- `SessionManager.get_subcategory_by_name` (src/session_manager.py:44-50). -/
def getSubcategoryByName (cats : Catalog) (categoryName subcategoryName : String) :
    Option Subcategory :=
  match getCategoryByName cats categoryName with
  | some c => c.subcategories.find? (fun sc => decide (pyLower sc.name = pyLower subcategoryName))
  | none => none

/-- `SessionManager.is_session_active` (src/session_manager.py:252-254). -/
def isSessionActive (ss : Sessions) (uid : Nat) : Bool :=
  match getUserSession ss uid with
  | some s => decide (s.state ≠ .idle)
  | none => false

/-- `SessionManager.start_new_session` (src/session_manager.py:58-69). -/
def startNewSession (ss : Sessions) (uid : Nat) : Sessions :=
  updateUserSession ss uid (fun s => { s with state := .categorySelection })

/-- `SessionManager.update_session_state` (src/session_manager.py:74-87),
with no extra fields. -/
def updateSessionState (ss : Sessions) (uid : Nat) (state : ConversationState) : Sessions :=
  updateUserSession ss uid (fun s => { s with state := state })

/-- `SessionManager.set_category` (src/session_manager.py:89-105): rejected
when the category is not in the catalog, otherwise written with state
`SUBCATEGORY_SELECTION` (creating the record when absent). -/
def setCategory (cats : Catalog) (ss : Sessions) (uid : Nat) (category : String) : Sessions :=
  match getCategoryByName cats category with
  | none => ss
  | some _ =>
    updateUserSession ss uid
      (fun s => { s with category := some category, state := .subcategorySelection })

/-- `SessionManager.set_subcategory` (src/session_manager.py:107-131):
rejected without a session, with a falsy category, or when the subcategory
is not in the selected category. -/
def setSubcategory (cats : Catalog) (ss : Sessions) (uid : Nat) (subcategory : String) :
    Sessions :=
  match getUserSession ss uid with
  | none => ss
  | some s =>
    match s.category with
    | none => ss
    | some c =>
      if c = "" then ss
      else
        match getSubcategoryByName cats c subcategory with
        | none => ss
        | some _ =>
          updateUserSession ss uid
            (fun t => { t with subcategory := some subcategory, state := .productInput })

/-- `SessionManager.set_product_name` (src/session_manager.py:133-147). -/
def setProductName (ss : Sessions) (uid : Nat) (productName : String) : Sessions :=
  updateUserSession ss uid
    (fun s => { s with productName := some productName, state := .processingProduct })

/-- `SessionManager.set_extracted_data` (src/session_manager.py:149-165). -/
def setExtractedData (ss : Sessions) (uid : Nat) (ed : ExtractedData) : Sessions :=
  updateUserSession ss uid
    (fun s => { s with extractedData := some ed, state := .confirmation })

/-- `SessionManager.set_description` (src/session_manager.py:167-195):
stores the description inside `extracted_data.listing` and moves the state
to `PRICE_INPUT`; a missing session is a no-op. -/
def setDescription (ss : Sessions) (uid : Nat) (description : String) : Sessions :=
  match getUserSession ss uid with
  | none => ss
  | some s =>
    let ed := s.extractedData.getD defaultExtractedData
    updateUserSession ss uid
      (fun t => { t with
        extractedData := some { ed with listingDescription := some description },
        state := .priceInput })

/-- `SessionManager.cancel_listing` (src/session_manager.py:234-250): logs,
then unconditionally clears the record. -/
def cancelListing (ss : Sessions) (uid : Nat) : Sessions :=
  clearUserSession ss uid

/-- `SessionManager.complete_listing` (src/session_manager.py:197-232):
requires a session with extracted data, persists the listing via
`save_product` (whose timestamp-derived id is the parameter `productId`),
and clears the session when the returned id is truthy. -/
def completeListing (st : GlobalState) (uid : Nat) (username : String) (price : ℚ)
    (productId : Nat) : Option Nat × GlobalState :=
  match getUserSession st.sessions uid with
  | none => (none, st)
  | some s =>
    match s.extractedData with
    | none => (none, st)
    | some ed =>
      let listing : Listing :=
        { id := productId
          userId := uid
          username := username
          category := ed.category.getD (s.category.getD "Unknown")
          subcategory := ed.subcategory.getD (s.subcategory.getD "Unknown")
          productName := ed.productName.getD (s.productName.getD "Unknown")
          attributes := ed.attributes
          price := price }
      if productId ≠ 0 then
        (some productId,
          { sessions := clearUserSession st.sessions uid
            listings := st.listings ++ [listing] })
      else
        (none, { st with listings := st.listings ++ [listing] })

/-- `BotHandlers.handle_plaseaza_anunt` (src/bot_handlers.py:50-74): an
active session rejects the start and leaves everything unchanged. -/
def handlePlaseazaAnunt (ss : Sessions) (uid : Nat) : Sessions :=
  if isSessionActive ss uid then ss else startNewSession ss uid

/-- The `confirm_product` branch of `handle_callback_query` feeding
`request_description` (src/bot_handlers.py:185-187, 366-399): with a
session, the state moves to `DESCRIPTION_INPUT`. -/
def handleConfirmProduct (ss : Sessions) (uid : Nat) : Sessions :=
  match getUserSession ss uid with
  | none => ss
  | some _ => updateSessionState ss uid .descriptionInput

/-- The `reject_product` branch of `handle_callback_query`
(src/bot_handlers.py:189-200). -/
def handleRejectProduct (ss : Sessions) (uid : Nat) : Sessions :=
  match getUserSession ss uid with
  | none => ss
  | some _ => updateSessionState ss uid .productInput

/-- The `back_to_categories` branch of `handle_callback_query`
(src/bot_handlers.py:174-179). -/
def handleBackToCategories (ss : Sessions) (uid : Nat) : Sessions :=
  match getUserSession ss uid with
  | none => ss
  | some _ => updateSessionState ss uid .categorySelection

/-- `BotHandlers.process_product_name` (src/bot_handlers.py:249-298): a
stripped name shorter than 3 characters re-prompts without any change;
otherwise the name is stored, the extraction client is called (its response
is the parameter `resp`) and the result stored with state `CONFIRMATION`. -/
def processProductName (ss : Sessions) (uid : Nat) (productName : String)
    (resp : ExtractedData) : Sessions :=
  match getUserSession ss uid with
  | none => ss
  | some _ =>
    if (pyStrip productName).data.length < 3 then ss
    else setExtractedData (setProductName ss uid productName) uid resp

/-- `BotHandlers.process_description_input` (src/bot_handlers.py:437-477):
descriptions outside 10..500 characters re-prompt without change. -/
def processDescriptionInput (ss : Sessions) (uid : Nat) (text : String) : Sessions :=
  let d := pyStrip text
  if d.data.length < 10 then ss
  else if d.data.length > 500 then ss
  else updateSessionState (setDescription ss uid d) uid .priceInput

/-- The run of characters the price regex `[\\d.,]+` matches first in the
comma-to-period-normalized input (src/bot_handlers.py:483; ASCII digits). -/
def priceRun (t : String) : List Char :=
  ((t.data.map (fun c => if c = ',' then '.' else c)).dropWhile
      (fun c => !(c.isDigit || c = '.' || c = ','))).takeWhile
    (fun c => c.isDigit || c = '.' || c = ',')

/-- Digit-run value. -/
def natOfDigits (l : List Char) : Nat :=
  l.foldl (fun n c => 10 * n + (c.toNat - 48)) 0

/-- Python `float()` on a run of digits and periods: at most one period
and at least one digit, with the exact decimal value (Python rounds to the
nearest double; the comparisons against 0 and 1,000,000 agree except for
inputs within one double-ulp of the bounds). -/
def pyFloatOfRun (l : List Char) : Option ℚ :=
  match l.span (fun c => decide (c ≠ '.')) with
  | (a, []) =>
    if a ≠ [] ∧ a.all Char.isDigit then some ((natOfDigits a : ℚ)) else none
  | (a, _ :: b) =>
    if (a ++ b) ≠ [] ∧ a.all Char.isDigit ∧ b.all Char.isDigit ∧ ¬ '.' ∈ b then
      some ((natOfDigits a : ℚ) + (natOfDigits b : ℚ) / (10 : ℚ) ^ b.length)
    else none

/-- The price-parsing step of `process_price_input`
(src/bot_handlers.py:483-497): first `[\\d.,]+` run of the
comma-normalized text, parsed as a decimal number. -/
def parsePrice (t : String) : Option ℚ :=
  match priceRun t with
  | [] => none
  | run => pyFloatOfRun run

/-- `BotHandlers.process_price_input` (src/bot_handlers.py:479-557): no
numeric run, an unparsable run, or a value outside `(0, 1000000]`
re-prompts without change; otherwise the listing is completed. -/
def processPriceInput (st : GlobalState) (uid : Nat) (username : String) (text : String)
    (productId : Nat) : GlobalState :=
  match parsePrice text with
  | none => st
  | some price =>
    if price ≤ 0 ∨ price > 1000000 then st
    else (completeListing st uid username price productId).2

/-- The user operations of the conversation flow. -/
inductive UserOp where
  | startCmd
  | pickCategory (category : String)
  | pickSubcategory (subcategory : String)
  | textInput (text : String) (resp : ExtractedData)
  | confirm
  | reject
  | back
  | cancel
deriving DecidableEq, Repr

/-- `BotHandlers.handle_text_message` (src/bot_handlers.py:223-247):
strips the text and dispatches on the session state; no session or any
other state ignores the message. -/
def handleTextMessage (st : GlobalState) (uid : Nat) (username : String) (text : String)
    (resp : ExtractedData) (productId : Nat) : GlobalState :=
  match getUserSession st.sessions uid with
  | none => st
  | some s =>
    match s.state with
    | .productInput =>
      { st with sessions := processProductName st.sessions uid (pyStrip text) resp }
    | .descriptionInput =>
      { st with sessions := processDescriptionInput st.sessions uid (pyStrip text) }
    | .priceInput => processPriceInput st uid username (pyStrip text) productId
    | _ => st

/-- One dispatched user event (command, callback button, or free text),
as routed by `register_handlers`/`handle_callback_query`
(src/bot_handlers.py:23-206). -/
def step (cats : Catalog) (st : GlobalState) (uid : Nat) (username : String)
    (productId : Nat) : UserOp → GlobalState
  | .startCmd => { st with sessions := handlePlaseazaAnunt st.sessions uid }
  | .pickCategory c => { st with sessions := setCategory cats st.sessions uid c }
  | .pickSubcategory sc => { st with sessions := setSubcategory cats st.sessions uid sc }
  | .textInput t resp => handleTextMessage st uid username t resp productId
  | .confirm => { st with sessions := handleConfirmProduct st.sessions uid }
  | .reject => { st with sessions := handleRejectProduct st.sessions uid }
  | .back => { st with sessions := handleBackToCategories st.sessions uid }
  | .cancel => { st with sessions := cancelListing st.sessions uid }

/-- A whole interaction history: each entry is one user's event together
with the environment data (extraction response inside the op, product id). -/
def runOps (cats : Catalog) (ops : List (Nat × String × Nat × UserOp)) : GlobalState :=
  ops.foldl (fun st e => step cats st e.1 e.2.1 e.2.2.1 e.2.2.2) initialState

section SessionLemmas

theorem dget_derase_self {κ α : Type} [DecidableEq κ] {d : List (κ × α)} {k : κ} :
    dget k (derase d k) = none := by
  apply dget_eq_none_of_not_mem
  intro hm
  simp only [dkeys, List.mem_map] at hm
  rcases hm with ⟨p, hp, rfl⟩
  rw [derase, List.mem_filter] at hp
  simp at hp

theorem nodup_dkeys_derase {κ α : Type} [DecidableEq κ] {d : List (κ × α)} {k : κ}
    (h : (dkeys d).Nodup) : (dkeys (derase d k)).Nodup := by
  apply List.Nodup.sublist _ h
  exact List.Sublist.map _ (List.filter_sublist d)

theorem nodup_updateUserSession {ss : Sessions} {uid : Nat} {f : Session → Session}
    (h : (dkeys ss).Nodup) : (dkeys (updateUserSession ss uid f)).Nodup :=
  nodup_dkeys_dinsert h

theorem nodup_setCategory {cats : Catalog} {ss : Sessions} {uid : Nat} {c : String}
    (h : (dkeys ss).Nodup) : (dkeys (setCategory cats ss uid c)).Nodup := by
  unfold setCategory
  split
  · exact h
  · exact nodup_updateUserSession h

theorem nodup_setSubcategory {cats : Catalog} {ss : Sessions} {uid : Nat} {sc : String}
    (h : (dkeys ss).Nodup) : (dkeys (setSubcategory cats ss uid sc)).Nodup := by
  unfold setSubcategory
  split
  · exact h
  · split
    · exact h
    · split
      · exact h
      · split
        · exact h
        · exact nodup_updateUserSession h

theorem nodup_setDescription {ss : Sessions} {uid : Nat} {d : String}
    (h : (dkeys ss).Nodup) : (dkeys (setDescription ss uid d)).Nodup := by
  unfold setDescription
  split
  · exact h
  · exact nodup_updateUserSession h

theorem nodup_processProductName {ss : Sessions} {uid : Nat} {pn : String}
    {resp : ExtractedData} (h : (dkeys ss).Nodup) :
    (dkeys (processProductName ss uid pn resp)).Nodup := by
  unfold processProductName
  split
  · exact h
  · split
    · exact h
    · exact nodup_updateUserSession (nodup_updateUserSession h)

theorem nodup_processDescriptionInput {ss : Sessions} {uid : Nat} {t : String}
    (h : (dkeys ss).Nodup) : (dkeys (processDescriptionInput ss uid t)).Nodup := by
  show (dkeys (if (pyStrip t).data.length < 10 then ss
    else if (pyStrip t).data.length > 500 then ss
    else updateSessionState (setDescription ss uid (pyStrip t)) uid
      ConversationState.priceInput)).Nodup
  split
  · exact h
  · split
    · exact h
    · exact nodup_updateUserSession (nodup_setDescription h)

theorem nodup_completeListing {st : GlobalState} {uid : Nat} {un : String} {p : ℚ}
    {pid : Nat} (h : (dkeys st.sessions).Nodup) :
    (dkeys ((completeListing st uid un p pid).2).sessions).Nodup := by
  unfold completeListing
  split
  · exact h
  · split
    · exact h
    · split
      · exact nodup_dkeys_derase h
      · exact h

theorem nodup_processPriceInput {st : GlobalState} {uid : Nat} {un : String} {t : String}
    {pid : Nat} (h : (dkeys st.sessions).Nodup) :
    (dkeys ((processPriceInput st uid un t pid)).sessions).Nodup := by
  unfold processPriceInput
  split
  · exact h
  · split
    · exact h
    · exact nodup_completeListing h

theorem nodup_handleTextMessage {st : GlobalState} {uid : Nat} {un t : String}
    {resp : ExtractedData} {pid : Nat} (h : (dkeys st.sessions).Nodup) :
    (dkeys ((handleTextMessage st uid un t resp pid)).sessions).Nodup := by
  unfold handleTextMessage
  split
  · exact h
  · split
    · exact nodup_processProductName h
    · exact nodup_processDescriptionInput h
    · exact nodup_processPriceInput h
    · exact h

theorem step_sessions_nodup (cats : Catalog) (st : GlobalState) (uid : Nat)
    (un : String) (pid : Nat) (op : UserOp) (h : (dkeys st.sessions).Nodup) :
    (dkeys ((step cats st uid un pid op)).sessions).Nodup := by
  cases op with
  | startCmd =>
    show (dkeys (handlePlaseazaAnunt st.sessions uid)).Nodup
    unfold handlePlaseazaAnunt
    split
    · exact h
    · exact nodup_updateUserSession h
  | pickCategory c => exact nodup_setCategory h
  | pickSubcategory sc => exact nodup_setSubcategory h
  | textInput t resp => exact nodup_handleTextMessage h
  | confirm =>
    show (dkeys (handleConfirmProduct st.sessions uid)).Nodup
    unfold handleConfirmProduct
    split
    · exact h
    · exact nodup_updateUserSession h
  | reject =>
    show (dkeys (handleRejectProduct st.sessions uid)).Nodup
    unfold handleRejectProduct
    split
    · exact h
    · exact nodup_updateUserSession h
  | back =>
    show (dkeys (handleBackToCategories st.sessions uid)).Nodup
    unfold handleBackToCategories
    split
    · exact h
    · exact nodup_updateUserSession h
  | cancel => exact nodup_dkeys_derase h

theorem runOps_sessions_nodup (cats : Catalog) (ops : List (Nat × String × Nat × UserOp)) :
    (dkeys (runOps cats ops).sessions).Nodup := by
  have haux : ∀ (l : List (Nat × String × Nat × UserOp)) (st : GlobalState),
      (dkeys st.sessions).Nodup →
      (dkeys (l.foldl (fun st e => step cats st e.1 e.2.1 e.2.2.1 e.2.2.2) st).sessions).Nodup := by
    intro l
    induction l with
    | nil => intro st h; exact h
    | cons e rest ih =>
      intro st h
      exact ih _ (step_sessions_nodup cats st e.1 e.2.1 e.2.2.1 e.2.2.2 h)
  exact haux ops initialState (by simp [initialState, dkeys])

end SessionLemmas

/-- Claim C2: across every sequence of user operations a user id maps to at
most one session record; starting a new session while one is active is
rejected with the store unchanged; cancel deletes the session record from
any state; and in `PRODUCT_INPUT` a text whose stripped length is below 3
leaves the state entirely unchanged. -/
theorem session_machine_safety (cats : Catalog) :
    (∀ (ops : List (Nat × String × Nat × UserOp)) (uid : Nat),
      (dkeys (runOps cats ops).sessions).count uid ≤ 1) ∧
    (∀ (st : GlobalState) (uid : Nat) (un : String) (pid : Nat),
      isSessionActive st.sessions uid = true →
      step cats st uid un pid .startCmd = st) ∧
    (∀ (st : GlobalState) (uid : Nat) (un : String) (pid : Nat),
      getUserSession ((step cats st uid un pid .cancel)).sessions uid = none) ∧
    (∀ (st : GlobalState) (uid : Nat) (un : String) (pid : Nat) (t : String)
        (resp : ExtractedData) (s : Session),
      getUserSession st.sessions uid = some s →
      s.state = .productInput →
      (pyStrip t).data.length < 3 →
      step cats st uid un pid (.textInput t resp) = st) := by
  refine ⟨?_, ?_, ?_, ?_⟩
  · intro ops uid
    exact List.nodup_iff_count_le_one.mp (runOps_sessions_nodup cats ops) uid
  · intro st uid un pid h
    show { st with sessions := handlePlaseazaAnunt st.sessions uid } = st
    unfold handlePlaseazaAnunt
    rw [if_pos h]
  · intro st uid un pid
    exact dget_derase_self
  · intro st uid un pid t resp s hget hstate h3
    simp only [step, handleTextMessage, hget, hstate, processProductName, pyStrip_idem]
    rw [if_pos h3]

/-- Witness for C2 at concrete inputs: a double start keeps a single
record, a start over an active session is a no-op, cancel empties the
record, and a 2-character product name changes nothing. -/
theorem session_machine_safety_witness :
    (dkeys (runOps [] [(1, "u", 0, .startCmd), (1, "u", 0, .startCmd)]).sessions).count 1 ≤ 1 ∧
    step [] ⟨[(1, ⟨.categorySelection, none, none, none, none⟩)], []⟩ 1 "u" 0 .startCmd =
      ⟨[(1, ⟨.categorySelection, none, none, none, none⟩)], []⟩ ∧
    getUserSession ((step [] ⟨[(1, ⟨.confirmation, none, none, none, none⟩)], []⟩
      1 "u" 0 .cancel)).sessions 1 = none ∧
    step [] ⟨[(2, ⟨.productInput, some "Electronics", some "Phones", none, none⟩)], []⟩
      2 "u" 0 (.textInput "ab" defaultExtractedData) =
      ⟨[(2, ⟨.productInput, some "Electronics", some "Phones", none, none⟩)], []⟩ := by
  refine ⟨?_, ?_, ?_, ?_⟩
  · exact (session_machine_safety []).1 [(1, "u", 0, .startCmd), (1, "u", 0, .startCmd)] 1
  · exact (session_machine_safety []).2.1
      ⟨[(1, ⟨.categorySelection, none, none, none, none⟩)], []⟩ 1 "u" 0 (by decide)
  · exact (session_machine_safety []).2.2.1
      ⟨[(1, ⟨.confirmation, none, none, none, none⟩)], []⟩ 1 "u" 0
  · exact (session_machine_safety []).2.2.2
      ⟨[(2, ⟨.productInput, some "Electronics", some "Phones", none, none⟩)], []⟩
      2 "u" 0 "ab" defaultExtractedData
      ⟨.productInput, some "Electronics", some "Phones", none, none⟩
      (by decide) (by decide) (by decide)

/-- Claim C4: in `PRICE_INPUT`, an input whose first digits/separators run
(comma normalized to period) parses to `0 < p ≤ 1000000` persists a listing
carrying `p` and deletes the session; every other input leaves the state
unchanged; `"299.99"` parses to 299.99 and `"150,50"` to 150.50, while
`"0"`, `"1000001"` and `"abc"` are rejected. -/
theorem price_input_behavior (cats : Catalog) :
    (∀ (st : GlobalState) (uid : Nat) (un : String) (pid : Nat) (t : String)
        (resp : ExtractedData) (s : Session) (ed : ExtractedData) (p : ℚ),
      getUserSession st.sessions uid = some s →
      s.state = .priceInput →
      s.extractedData = some ed →
      parsePrice (pyStrip t) = some p →
      0 < p → p ≤ 1000000 → pid ≠ 0 →
      step cats st uid un pid (.textInput t resp) =
        { sessions := clearUserSession st.sessions uid
          listings := st.listings ++
            [{ id := pid
               userId := uid
               username := un
               category := ed.category.getD (s.category.getD "Unknown")
               subcategory := ed.subcategory.getD (s.subcategory.getD "Unknown")
               productName := ed.productName.getD (s.productName.getD "Unknown")
               attributes := ed.attributes
               price := p }] }) ∧
    (∀ (st : GlobalState) (uid : Nat) (un : String) (pid : Nat) (t : String)
        (resp : ExtractedData) (s : Session),
      getUserSession st.sessions uid = some s →
      s.state = .priceInput →
      (parsePrice (pyStrip t) = none ∨
        ∃ p, parsePrice (pyStrip t) = some p ∧ (p ≤ 0 ∨ p > 1000000)) →
      step cats st uid un pid (.textInput t resp) = st) ∧
    parsePrice "299.99" = some (29999/100) ∧
    parsePrice "150,50" = some (301/2) ∧
    parsePrice "0" = some 0 ∧
    parsePrice "1000001" = some 1000001 ∧
    parsePrice "abc" = none := by
  refine ⟨?_, ?_, ?_, ?_, ?_, ?_, ?_⟩
  · intro st uid un pid t resp s ed p hget hstate hed hparse hp0 hp1 hpid
    simp only [step, handleTextMessage, hget, hstate, processPriceInput, hparse,
      completeListing, hed]
    rw [if_neg (by push_neg; exact ⟨by linarith, by linarith⟩), if_pos hpid]
  · intro st uid un pid t resp s hget hstate hbad
    simp only [step, handleTextMessage, hget, hstate]
    rcases hbad with hnone | ⟨p, hp, hrange⟩
    · simp only [processPriceInput, hnone]
    · simp only [processPriceInput, hp]
      rw [if_pos hrange]
  · have hrun : priceRun "299.99" = ['2', '9', '9', '.', '9', '9'] := by decide
    have hspan : (['2', '9', '9', '.', '9', '9'].span (fun c => decide (c ≠ '.'))) =
        (['2', '9', '9'], ['.', '9', '9']) := by decide
    simp only [parsePrice, hrun, pyFloatOfRun, hspan]
    rw [if_pos (by decide)]
    rw [show natOfDigits ['2', '9', '9'] = 299 from by decide,
      show natOfDigits ['9', '9'] = 99 from by decide,
      show (['9', '9'] : List Char).length = 2 from rfl]
    push_cast
    norm_num
  · have hrun : priceRun "150,50" = ['1', '5', '0', '.', '5', '0'] := by decide
    have hspan : (['1', '5', '0', '.', '5', '0'].span (fun c => decide (c ≠ '.'))) =
        (['1', '5', '0'], ['.', '5', '0']) := by decide
    simp only [parsePrice, hrun, pyFloatOfRun, hspan]
    rw [if_pos (by decide)]
    rw [show natOfDigits ['1', '5', '0'] = 150 from by decide,
      show natOfDigits ['5', '0'] = 50 from by decide,
      show (['5', '0'] : List Char).length = 2 from rfl]
    push_cast
    norm_num
  · have hrun : priceRun "0" = ['0'] := by decide
    have hspan : (['0'].span (fun c => decide (c ≠ '.'))) = (['0'], []) := by decide
    simp only [parsePrice, hrun, pyFloatOfRun, hspan]
    rw [if_pos (by decide)]
    rw [show natOfDigits ['0'] = 0 from by decide]
    push_cast
    norm_num
  · have hrun : priceRun "1000001" = ['1', '0', '0', '0', '0', '0', '1'] := by decide
    have hspan : (['1', '0', '0', '0', '0', '0', '1'].span (fun c => decide (c ≠ '.'))) =
        (['1', '0', '0', '0', '0', '0', '1'], []) := by decide
    simp only [parsePrice, hrun, pyFloatOfRun, hspan]
    rw [if_pos (by decide)]
    rw [show natOfDigits ['1', '0', '0', '0', '0', '0', '1'] = 1000001 from by decide]
    push_cast
    norm_num
  · have hrun : priceRun "abc" = [] := by decide
    simp only [parsePrice, hrun]

/-- The concrete extraction record used by the C4 witness. -/
def c4ED : ExtractedData :=
  ⟨true, some "Electronics", some "Phones", some "iPhone 13",
    [("Brand", PyVal.str "Apple")], some "desc"⟩

/-- The concrete state used by the C4 witness: user 7 at `PRICE_INPUT`. -/
def c4State : GlobalState :=
  ⟨[(7, ⟨.priceInput, some "Electronics", some "Phones", some "iPhone 13",
    some c4ED⟩)], []⟩

/-- The listing the C4 witness expects to be persisted. -/
def c4Listing : Listing :=
  ⟨99, 7, "alice", "Electronics", "Phones", "iPhone 13",
    [("Brand", PyVal.str "Apple")], 29999/100⟩

/-- Witness for C4: with one user at `PRICE_INPUT` carrying extracted data,
the input `"299.99"` persists the listing at price 299.99 and deletes the
session, while `"abc"` and `"0"` leave the state unchanged. -/
theorem price_input_behavior_witness :
    step [] c4State 7 "alice" 99 (.textInput "299.99" defaultExtractedData) =
      { sessions := clearUserSession c4State.sessions 7,
        listings := c4State.listings ++ [c4Listing] } ∧
    step [] c4State 7 "alice" 99 (.textInput "abc" defaultExtractedData) = c4State ∧
    step [] c4State 7 "alice" 99 (.textInput "0" defaultExtractedData) = c4State := by
  refine ⟨?_, ?_, ?_⟩
  · exact (price_input_behavior []).1 c4State 7 "alice" 99 "299.99"
      defaultExtractedData _ c4ED (29999/100) rfl rfl rfl
      (by rw [show pyStrip "299.99" = "299.99" from by decide]
          exact (price_input_behavior []).2.2.1)
      (by norm_num) (by norm_num) (by decide)
  · exact (price_input_behavior []).2.1 c4State 7 "alice" 99 "abc"
      defaultExtractedData _ rfl rfl
      (Or.inl (by rw [show pyStrip "abc" = "abc" from by decide]
                  exact (price_input_behavior []).2.2.2.2.2.2))
  · exact (price_input_behavior []).2.1 c4State 7 "alice" 99 "0"
      defaultExtractedData _ rfl rfl
      (Or.inr ⟨0, by rw [show pyStrip "0" = "0" from by decide]
                     exact (price_input_behavior []).2.2.2.2.1,
        Or.inl (by norm_num)⟩)

/-!  Button-callback payloads: encoding in `show_category_selection`
(src/bot_handlers.py:93) and `show_subcategory_selection`
(src/bot_handlers.py:127), decoding in `handle_callback_query`
(src/bot_handlers.py:147-206).  -/

/-- Python `s.startswith(pre)`. -/
def strStartsWith (s pre : String) : Bool :=
  pre.data.isPrefixOf s.data

/-- Python `s[n:]` (by code points). -/
def strDrop (s : String) (n : Nat) : String :=
  ⟨s.data.drop n⟩

/-- Python `s.split(c, 1)` when the delimiter occurs (`none` otherwise,
the length-1 result the handler ignores). -/
def splitOnce (l : List Char) (c : Char) : Option (List Char × List Char) :=
  match l with
  | [] => none
  | a :: t =>
    if a = c then some ([], t)
    else (splitOnce t c).map (fun p => (a :: p.1, p.2))

/-- The payload `f"cat_\x7bcat_name\x7d"` of a category button
(src/bot_handlers.py:93). -/
def encodeCatPayload (name : String) : String :=
  "cat_" ++ name

/-- The payload `f"subcat_\x7bcategory_name\x7d_\x7bsubcat_name\x7d"` of a
subcategory button (src/bot_handlers.py:127). -/
def encodeSubcatPayload (category subcategory : String) : String :=
  "subcat_" ++ category ++ "_" ++ subcategory

/-- The actions `handle_callback_query` decodes payloads into. -/
inductive PayloadAction where
  | cat (name : String)
  | subcat (category subcategory : String)
  | backToCategories
  | cancelled
  | confirmProduct
  | rejectProduct
  | malformedSubcat
  | other
deriving DecidableEq, Repr

/-- The payload dispatch of `handle_callback_query`
(src/bot_handlers.py:154-201): `cat_` prefix first, then `subcat_` with a
single split at the first `'_'` of the remainder, then the fixed action
strings. -/
def decodePayload (data : String) : PayloadAction :=
  if strStartsWith data "cat_" then .cat (strDrop data 4)
  else if strStartsWith data "subcat_" then
    match splitOnce (strDrop data 7).data '_' with
    | some (a, b) => .subcat ⟨a⟩ ⟨b⟩
    | none => .malformedSubcat
  else if data = "back_to_categories" then .backToCategories
  else if data = "cancel_listing" then .cancelled
  else if data = "confirm_product" then .confirmProduct
  else if data = "reject_product" then .rejectProduct
  else .other

theorem splitOnce_append {a : List Char} (b : List Char) {c : Char} (h : c ∉ a) :
    splitOnce (a ++ c :: b) c = some (a, b) := by
  induction a with
  | nil =>
    simp [splitOnce]
  | cons x t ih =>
    simp only [List.mem_cons, not_or] at h
    rw [List.cons_append, splitOnce, if_neg (fun he : x = c => h.1 he.symm), ih h.2]
    rfl

/-- Counterexample to claim C9 as stated: a category name containing the
`'_'` delimiter does not round-trip — `subcat_Home_Garden_Tools` decodes by
first-split to `("Home", "Garden_Tools")`, not `("Home_Garden", "Tools")`. -/
theorem payload_roundtrip_counterexample :
    encodeSubcatPayload "Home_Garden" "Tools" = "subcat_Home_Garden_Tools" ∧
    decodePayload (encodeSubcatPayload "Home_Garden" "Tools") =
      .subcat "Home" "Garden_Tools" ∧
    ¬ PayloadAction.subcat "Home" "Garden_Tools" =
        .subcat "Home_Garden" "Tools" := by
  refine ⟨by decide, by decide, by decide⟩

/-- Claim C9 (amended): `cat_<name>` payloads round-trip for every name,
and `subcat_<category>_<subcategory>` payloads round-trip under first-split
decoding exactly when the category name contains no `'_'` — the
subcategory name may contain the delimiter freely. -/
theorem payload_codec_roundtrip :
    (∀ name : String, decodePayload (encodeCatPayload name) = .cat name) ∧
    (∀ cat sub : String, ¬ '_' ∈ cat.data →
      decodePayload (encodeSubcatPayload cat sub) = .subcat cat sub) := by
  have hprefap : ∀ (a b : List Char), a.isPrefixOf (a ++ b) = true := by
    intro a b
    induction a with
    | nil => simp [List.isPrefixOf]
    | cons x t ih => simp [List.isPrefixOf, ih]
  have hcatl : "cat_".data = ['c', 'a', 't', '_'] := by decide
  have hsubl : "subcat_".data = ['s', 'u', 'b', 'c', 'a', 't', '_'] := by decide
  have hundl : "_".data = ['_'] := by decide
  constructor
  · intro name
    show decodePayload ("cat_" ++ name) = .cat name
    have hpre : strStartsWith ("cat_" ++ name) "cat_" = true := by
      show ("cat_".data.isPrefixOf (("cat_" ++ name).data)) = true
      rw [String.data_append, hcatl]
      exact hprefap _ _
    unfold decodePayload
    rw [if_pos hpre]
    show PayloadAction.cat ⟨("cat_" ++ name).data.drop 4⟩ = .cat name
    rw [String.data_append, hcatl,
      show (4 : Nat) = (['c', 'a', 't', '_'] : List Char).length from rfl,
      List.drop_left]
  · intro cat sub h
    have hdata : (encodeSubcatPayload cat sub).data =
        's' :: 'u' :: 'b' :: 'c' :: 'a' :: 't' :: '_' :: (cat.data ++ '_' :: sub.data) := by
      show ("subcat_" ++ cat ++ "_" ++ sub).data = _
      rw [String.data_append, String.data_append, String.data_append, hsubl, hundl]
      simp
    have hnotcat : strStartsWith (encodeSubcatPayload cat sub) "cat_" = false := by
      unfold strStartsWith
      rw [hdata, hcatl]
      rfl
    have hsub : strStartsWith (encodeSubcatPayload cat sub) "subcat_" = true := by
      unfold strStartsWith
      rw [hdata, hsubl]
      exact hprefap ['s', 'u', 'b', 'c', 'a', 't', '_'] (cat.data ++ '_' :: sub.data)
    unfold decodePayload
    rw [if_neg (by rw [hnotcat]; exact Bool.false_ne_true), if_pos hsub]
    have hdrop : (strDrop (encodeSubcatPayload cat sub) 7).data =
        cat.data ++ '_' :: sub.data := by
      show ((encodeSubcatPayload cat sub).data.drop 7) = _
      rw [hdata]
      rfl
    rw [hdrop, splitOnce_append sub.data h]

/-- Witness for the amended C9: the catalog-style names round-trip, the
subcategory name containing `'_'` included. -/
theorem payload_codec_roundtrip_witness :
    decodePayload (encodeCatPayload "Electronics") = .cat "Electronics" ∧
    decodePayload (encodeSubcatPayload "Electronics" "Smartphones & Accessories") =
      .subcat "Electronics" "Smartphones & Accessories" ∧
    decodePayload (encodeSubcatPayload "Books" "Sci_Fi") = .subcat "Books" "Sci_Fi" := by
  refine ⟨payload_codec_roundtrip.1 "Electronics",
    payload_codec_roundtrip.2 "Electronics" "Smartphones & Accessories" (by decide),
    payload_codec_roundtrip.2 "Books" "Sci_Fi" (by decide)⟩

/-!  The extraction client's response interpretation.  `AIModelClient`
(src/ai_api.py) isolates a JSON object before parsing and wraps the manual
fallback in its own try/except; `DeepSeekAPI` (src/deepseek_api.py) parses
the content directly and owns the `_manual_attribute_extraction` method.  -/

/-- First match index of `pat` in a character list (Python `s.find(pat)`,
with `None` for Python's `-1`). -/
def strFindL (pat : List Char) : List Char → Option Nat
  | [] => if pat.isEmpty then some 0 else none
  | c :: t =>
    if pat.isPrefixOf (c :: t) then some 0
    else (strFindL pat t).map (· + 1)

/-- First index of a character (Python `s.find(c)`). -/
def charFindL (c : Char) : List Char → Option Nat
  | [] => none
  | a :: t => if a = c then some 0 else (charFindL c t).map (· + 1)

/-- Last index of a character (Python `s.rfind(c)`). -/
def charRFindL (c : Char) (l : List Char) : Option Nat :=
  (charFindL c l.reverse).map (fun i => l.length - 1 - i)

/-- Python `l[a:b]` for `0 ≤ a ≤ b` (the only shape used here). -/
def sliceL (l : List Char) (a b : Nat) : List Char :=
  (l.drop a).take (b - a)

/-- The opening-brace character. -/
def lbrace : Char := Char.ofNat 123

/-- The closing-brace character. -/
def rbrace : Char := Char.ofNat 125

/-- The backtick character. -/
def btick : Char := Char.ofNat 96

/-- The JSON-isolation step of `AIModelClient.extract_product_attributes`
(src/ai_api.py:66-76): prefer the content of a fenced block opened by
three backticks plus `json` (left unchanged when the closing fence is
missing), otherwise the substring between the first opening brace and the
last closing brace when the latter comes after the former. -/
def isolateJson (content : String) : String :=
  let raw := content.data
  if listContains "```json".data raw then
    match strFindL "```json".data raw with
    | some idx =>
      match strFindL "```".data (raw.drop (idx + 7)) with
      | some e => ⟨stripEnds pySpace (sliceL raw (idx + 7) (idx + 7 + e))⟩
      | none => content
    | none => content
  else
    match charFindL lbrace raw, charRFindL rbrace raw with
    | some f, some l => if l > f then ⟨sliceL raw f (l + 1)⟩ else content
    | _, _ => content

/-- Python `str.split('\n')` on a character list (splitting on the exact
newline character; `''` splits to `['']`). -/
def splitLines : List Char → List (List Char)
  | [] => [[]]
  | c :: t =>
    if c = '\n' then [] :: splitLines t
    else
      match splitLines t with
      | [] => [[c]]
      | h :: r => (c :: h) :: r

/-- The two quote characters (double and single) that the fallback strips
from the extracted value after whitespace stripping. -/
def isQuoteChar (c : Char) : Bool :=
  c = Char.ofNat 34 || c = Char.ofNat 39

/-- `DeepSeekAPI._manual_attribute_extraction` (src/deepseek_api.py:402-423,
absent from `AIModelClient`): for each expected attribute, the first line
containing the attribute name case-insensitively and a colon yields the
text after the first colon, whitespace- then quote-stripped; otherwise the
sentinel. -/
def manualAttributeExtraction (content : String) (expected : List String) :
    List (String × String) :=
  expected.foldl (fun acc attr =>
    match (splitLines content.data).find? (fun line =>
        listContains (pyLower attr).data (line.map Char.toLower) &&
          decide (':' ∈ line)) with
    | some line =>
      match splitOnce line ':' with
      | some p => dinsert acc attr ⟨stripEnds isQuoteChar (stripEnds pySpace p.2)⟩
      | none => acc
    | none => dinsert acc attr sentinel) []

/-- The result dict of one extraction call, restricted to the keys the
two clients produce; absent keys are `none`. -/
structure ExtractResult where
  success : Bool
  productName : String
  category : Option String
  subcategory : Option String
  attributes : Option (List (String × String))
  confidence : Option ℚ
  note : Option String
  error : Option String
deriving DecidableEq, Repr

/-- The `json.JSONDecodeError` handler of
`DeepSeekAPI.extract_product_attributes` (src/deepseek_api.py:90-104): a
parse failure falls back to manual extraction — a total function, so this
branch always returns success with confidence 0.5 and the fallback note. -/
def deepseekParseFailureResult (content productName category subcategory : String)
    (expected : List String) : ExtractResult :=
  { success := true
    productName := productName
    category := some category
    subcategory := some subcategory
    attributes := some (manualAttributeExtraction content expected)
    confidence := some (1/2)
    note := some "Extracted using fallback method due to JSON parsing error"
    error := none }

/-- The `json.JSONDecodeError` handler of
`AIModelClient.extract_product_attributes` (src/ai_api.py:96-116): the
fallback extractor is tried on the isolated text (or the whole content when
the isolated text is empty); if it returns, the call succeeds with
confidence 0.5 and the fallback note, and only if it throws does the call
fail, with both error messages concatenated.  The fallback is a parameter
because `AIModelClient` has no `_manual_attribute_extraction` method: at
runtime the attribute lookup itself raises `AttributeError`, so the
`.error` branch is the one taken. -/
def aiApiParseFailureResult (raw content productName category subcategory : String)
    (expected : List String) (jsonErr : String)
    (fallback : String → List String → Except String (List (String × String))) :
    ExtractResult :=
  match fallback (if raw ≠ "" then raw else content) expected with
  | .ok attrs =>
    { success := true
      productName := productName
      category := some category
      subcategory := some subcategory
      attributes := some attrs
      confidence := some (1/2)
      note := some "Extracted using fallback method due to JSON parsing error"
      error := none }
  | .error fallbackErr =>
    { success := false
      productName := productName
      category := none
      subcategory := none
      attributes := none
      confidence := none
      note := none
      error := some ("JSON parse failed and fallback extraction failed: " ++
        jsonErr ++ " | " ++ fallbackErr) }

section SearchLemmas

theorem isPrefixOf_append_self (a b : List Char) : a.isPrefixOf (a ++ b) = true := by
  induction a with
  | nil => simp [List.isPrefixOf]
  | cons x t ih => simp [List.isPrefixOf, ih]

theorem isPrefixOf_self (a : List Char) : a.isPrefixOf a = true := by
  have h := isPrefixOf_append_self a []
  rwa [List.append_nil] at h

theorem listContains_of_prefix {pat b : List Char} (h : pat.isPrefixOf b = true)
    (a : List Char) : listContains pat (a ++ b) = true := by
  induction a with
  | nil =>
    cases b with
    | nil =>
      cases pat with
      | nil => rfl
      | cons c p => simp [List.isPrefixOf] at h
    | cons x t => simp [listContains, h]
  | cons x t ih => simp [listContains, ih]

theorem mem_of_listContains {c : Char} {p l : List Char}
    (h : listContains (c :: p) l = true) : c ∈ l := by
  induction l with
  | nil => simp [listContains, List.isEmpty] at h
  | cons a t ih =>
    rw [listContains, Bool.or_eq_true] at h
    rcases h with h | h
    · simp only [List.isPrefixOf, Bool.and_eq_true, beq_iff_eq] at h
      exact h.1 ▸ List.mem_cons_self _ _
    · exact List.mem_cons_of_mem _ (ih h)

theorem strFindL_append_first {c : Char} {p : List Char} {a b : List Char}
    (ha : c ∉ a) (hb : ((c :: p).isPrefixOf b) = true) :
    strFindL (c :: p) (a ++ b) = some a.length := by
  induction a with
  | nil =>
    cases b with
    | nil => simp [List.isPrefixOf] at hb
    | cons x t =>
      show strFindL (c :: p) (x :: t) = some 0
      rw [strFindL, if_pos hb]
  | cons x t ih =>
    simp only [List.mem_cons, not_or] at ha
    have hxne : ((c :: p).isPrefixOf (x :: (t ++ b))) = false := by
      have hcx : (c == x) = false := by
        simp [ha.1]
      simp [List.isPrefixOf, hcx]
    rw [List.cons_append, strFindL, if_neg (by simp [hxne]), ih ha.2]
    rfl

theorem charFindL_append {c : Char} {a : List Char} (ha : c ∉ a) (b : List Char) :
    charFindL c (a ++ c :: b) = some a.length := by
  induction a with
  | nil =>
    show charFindL c (c :: b) = some 0
    rw [charFindL, if_pos rfl]
  | cons x t ih =>
    simp only [List.mem_cons, not_or] at ha
    rw [List.cons_append, charFindL, if_neg (fun he : x = c => ha.1 he.symm), ih ha.2]
    rfl

end SearchLemmas

/-- Claim C6: before JSON parsing, `AIModelClient` isolates a JSON object
from the model's free text — with a fenced block present it parses only
the (stripped) fenced content, ignoring surrounding prose; without a fence
it parses the substring from the first opening brace to the last closing
brace.  (`DeepSeekAPI`, the elder client, parses the content directly.) -/
theorem json_isolation :
    (∀ pre mid post : String,
      btick ∉ pre.data → btick ∉ mid.data →
      isolateJson (pre ++ "```json" ++ mid ++ "```" ++ post) = pyStrip mid) ∧
    (∀ pre mid post : String,
      btick ∉ pre.data → btick ∉ mid.data → btick ∉ post.data →
      lbrace ∉ pre.data → rbrace ∉ post.data →
      isolateJson (pre ++ "\x7b" ++ mid ++ "\x7d" ++ post) =
        "\x7b" ++ mid ++ "\x7d") := by
  have hfjd : "```json".data = btick :: [btick, btick, 'j', 's', 'o', 'n'] := by decide
  have hb3d : "```".data = btick :: [btick, btick] := by decide
  constructor
  · intro pre mid post hpre hmid
    have hdata : (pre ++ "```json" ++ mid ++ "```" ++ post).data =
        pre.data ++ ("```json".data ++ (mid.data ++ ("```".data ++ post.data))) := by
      rw [String.data_append, String.data_append, String.data_append, String.data_append]
      simp [List.append_assoc]
    have hcontains : listContains "```json".data
        ((pre ++ "```json" ++ mid ++ "```" ++ post).data) = true := by
      rw [hdata]
      exact listContains_of_prefix (isPrefixOf_append_self _ _) _
    have hfind1 : strFindL "```json".data
        ((pre ++ "```json" ++ mid ++ "```" ++ post).data) = some pre.data.length := by
      rw [hdata, hfjd]
      exact strFindL_append_first hpre (isPrefixOf_append_self _ _)
    have hdrop : ((pre ++ "```json" ++ mid ++ "```" ++ post).data).drop
        (pre.data.length + 7) = mid.data ++ ("```".data ++ post.data) := by
      rw [hdata, ← List.append_assoc,
        show pre.data.length + 7 = (pre.data ++ "```json".data).length from by
          rw [List.length_append, show ("```json".data).length = 7 from by decide],
        List.drop_left]
    have hfind2 : strFindL "```".data (mid.data ++ ("```".data ++ post.data)) =
        some mid.data.length := by
      rw [hb3d]
      exact strFindL_append_first hmid (isPrefixOf_append_self _ _)
    have hslice : sliceL ((pre ++ "```json" ++ mid ++ "```" ++ post).data)
        (pre.data.length + 7) (pre.data.length + 7 + mid.data.length) = mid.data := by
      unfold sliceL
      rw [hdrop, Nat.add_sub_cancel_left, List.take_left]
    simp only [isolateJson]
    rw [if_pos hcontains]
    simp only [hfind1, hdrop, hfind2]
    rw [hslice]
    rfl
  · intro pre mid post hpre hmid hpost hlb hrb
    have hlbd : "\x7b".data = [lbrace] := by decide
    have hrbd : "\x7d".data = [rbrace] := by decide
    have hdata : (pre ++ "\x7b" ++ mid ++ "\x7d" ++ post).data =
        pre.data ++ lbrace :: (mid.data ++ rbrace :: post.data) := by
      rw [String.data_append, String.data_append, String.data_append,
        String.data_append, hlbd, hrbd]
      simp [List.append_assoc]
    have hnofence : ¬ (listContains "```json".data
        ((pre ++ "\x7b" ++ mid ++ "\x7d" ++ post).data) = true) := by
      intro hc
      rw [hfjd] at hc
      have hbmem := mem_of_listContains hc
      rw [hdata] at hbmem
      simp only [List.mem_append, List.mem_cons] at hbmem
      rcases hbmem with h | h | h | h | h
      · exact hpre h
      · exact absurd h (by decide)
      · exact hmid h
      · exact absurd h (by decide)
      · exact hpost h
    have hfirst : charFindL lbrace ((pre ++ "\x7b" ++ mid ++ "\x7d" ++ post).data) =
        some pre.data.length := by
      rw [hdata]
      exact charFindL_append hlb _
    have hrev : ((pre ++ "\x7b" ++ mid ++ "\x7d" ++ post).data).reverse =
        post.data.reverse ++ rbrace :: (mid.data.reverse ++ lbrace :: pre.data.reverse) := by
      rw [hdata]
      simp [List.reverse_append, List.append_assoc]
    have hlen : ((pre ++ "\x7b" ++ mid ++ "\x7d" ++ post).data).length =
        pre.data.length + 1 + mid.data.length + 1 + post.data.length := by
      rw [hdata]
      simp [List.length_append]
      omega
    have hrfind : charRFindL rbrace ((pre ++ "\x7b" ++ mid ++ "\x7d" ++ post).data) =
        some (pre.data.length + mid.data.length + 1) := by
      unfold charRFindL
      rw [hrev, charFindL_append (fun hm => hrb (List.mem_reverse.mp hm)),
        Option.map_some']
      congr 1
      rw [List.length_reverse, hlen]
      omega
    have hdrop2 : ((pre ++ "\x7b" ++ mid ++ "\x7d" ++ post).data).drop pre.data.length =
        lbrace :: (mid.data ++ rbrace :: post.data) := by
      rw [hdata]
      exact List.drop_left _ _
    have hslice2 : sliceL ((pre ++ "\x7b" ++ mid ++ "\x7d" ++ post).data)
        pre.data.length (pre.data.length + mid.data.length + 1 + 1) =
        lbrace :: (mid.data ++ [rbrace]) := by
      unfold sliceL
      rw [hdrop2,
        show pre.data.length + mid.data.length + 1 + 1 - pre.data.length =
          (lbrace :: (mid.data ++ [rbrace])).length from by simp; omega,
        show lbrace :: (mid.data ++ rbrace :: post.data) =
          (lbrace :: (mid.data ++ [rbrace])) ++ post.data from by simp,
        List.take_left]
    have hrhs : ("\x7b" ++ mid ++ "\x7d" : String) = ⟨lbrace :: (mid.data ++ [rbrace])⟩ := by
      show String.mk ("\x7b" ++ mid ++ "\x7d").data = _
      rw [String.data_append, String.data_append, hlbd, hrbd]
      exact congrArg String.mk (by simp)
    simp only [isolateJson]
    rw [if_neg hnofence]
    simp only [hfirst, hrfind]
    rw [if_pos (by omega : pre.data.length + mid.data.length + 1 > pre.data.length)]
    rw [hslice2, hrhs]

/-- Witness for C6 at concrete responses: a fenced block with leading and
trailing prose isolates to the stripped fenced JSON; a bare object wrapped
in prose isolates to the first-brace-to-last-brace span. -/
theorem json_isolation_witness :
    isolateJson ("Sure! Here is the JSON:\n" ++ "```json" ++
        " \x7b\"Brand\": \"Apple\"\x7d \n" ++ "```" ++ "\nHope this helps.") =
      pyStrip " \x7b\"Brand\": \"Apple\"\x7d \n" ∧
    isolateJson ("The answer is: " ++ "\x7b" ++ "\"Brand\": \"Apple\"" ++ "\x7d" ++
        " as requested.") =
      "\x7b" ++ "\"Brand\": \"Apple\"" ++ "\x7d" := by
  constructor
  · exact json_isolation.1 "Sure! Here is the JSON:\n" " \x7b\"Brand\": \"Apple\"\x7d \n"
      "\nHope this helps." (by decide) (by decide)
  · exact json_isolation.2 "The answer is: " "\"Brand\": \"Apple\"" " as requested."
      (by decide) (by decide) (by decide) (by decide) (by decide)

/-- Claim C5: when the model content fails JSON parsing, the parse-failure
handler returns a success result whose attributes come from the
line-oriented manual fallback extractor with confidence exactly 0.5 and the
fallback note (concretely, a response with a line `Brand: Apple` yields
`Apple` for `Brand`); the call reports failure only if the fallback throws,
and then the error message carries both the JSON error and the fallback
error concatenated. -/
theorem parse_failure_fallback :
    (∀ (content productName category subcategory : String) (expected : List String),
      (deepseekParseFailureResult content productName category subcategory
          expected).success = true ∧
      (deepseekParseFailureResult content productName category subcategory
          expected).attributes =
        some (manualAttributeExtraction content expected) ∧
      (deepseekParseFailureResult content productName category subcategory
          expected).confidence = some (1/2) ∧
      (deepseekParseFailureResult content productName category subcategory
          expected).note =
        some "Extracted using fallback method due to JSON parsing error") ∧
    dget "Brand" (manualAttributeExtraction
      "I could not produce valid JSON.\nBrand: Apple\nModel: Unknown"
      ["Brand", "Model"]) = some "Apple" ∧
    (∀ (raw content pn cat sub jsonErr : String) (expected : List String)
        (attrs : List (String × String))
        (fallback : String → List String → Except String (List (String × String))),
      fallback (if raw ≠ "" then raw else content) expected = .ok attrs →
      aiApiParseFailureResult raw content pn cat sub expected jsonErr fallback =
        { success := true, productName := pn, category := some cat,
          subcategory := some sub, attributes := some attrs,
          confidence := some (1/2),
          note := some "Extracted using fallback method due to JSON parsing error",
          error := none }) ∧
    (∀ (raw content pn cat sub jsonErr fallbackErr : String) (expected : List String)
        (fallback : String → List String → Except String (List (String × String))),
      fallback (if raw ≠ "" then raw else content) expected = .error fallbackErr →
      (aiApiParseFailureResult raw content pn cat sub expected jsonErr
          fallback).success = false ∧
      (aiApiParseFailureResult raw content pn cat sub expected jsonErr
          fallback).error =
        some ("JSON parse failed and fallback extraction failed: " ++
          jsonErr ++ " | " ++ fallbackErr) ∧
      pyIn jsonErr ("JSON parse failed and fallback extraction failed: " ++
        jsonErr ++ " | " ++ fallbackErr) = true ∧
      pyIn fallbackErr ("JSON parse failed and fallback extraction failed: " ++
        jsonErr ++ " | " ++ fallbackErr) = true) := by
  refine ⟨?_, ?_, ?_, ?_⟩
  · intro content productName category subcategory expected
    exact ⟨rfl, rfl, rfl, rfl⟩
  · decide
  · intro raw content pn cat sub jsonErr expected attrs fallback hok
    unfold aiApiParseFailureResult
    rw [hok]
  · intro raw content pn cat sub jsonErr fallbackErr expected fallback herr
    have hres : aiApiParseFailureResult raw content pn cat sub expected jsonErr
        fallback =
        { success := false, productName := pn, category := none, subcategory := none,
          attributes := none, confidence := none, note := none,
          error := some ("JSON parse failed and fallback extraction failed: " ++
            jsonErr ++ " | " ++ fallbackErr) } := by
      unfold aiApiParseFailureResult
      rw [herr]
    refine ⟨by rw [hres], by rw [hres], ?_, ?_⟩
    · show listContains jsonErr.data
        (("JSON parse failed and fallback extraction failed: " ++
          jsonErr ++ " | " ++ fallbackErr).data) = true
      rw [String.data_append, String.data_append, String.data_append,
        List.append_assoc, List.append_assoc]
      exact listContains_of_prefix (isPrefixOf_append_self _ _) _
    · show listContains fallbackErr.data
        (("JSON parse failed and fallback extraction failed: " ++
          jsonErr ++ " | " ++ fallbackErr).data) = true
      rw [String.data_append]
      exact listContains_of_prefix (isPrefixOf_self _) _

/-- Witness for C5 at concrete inputs: a succeeding fallback yields the
success record; a throwing fallback (the `AttributeError` that
`AIModelClient`'s missing `_manual_attribute_extraction` raises at
runtime) yields failure with both messages in the error. -/
theorem parse_failure_fallback_witness :
    (deepseekParseFailureResult "Brand: Apple" "iPhone" "Electronics" "Phones"
        ["Brand"]).success = true ∧
    aiApiParseFailureResult "Brand: Apple" "Brand: Apple" "iPhone" "Electronics"
        "Phones" ["Brand"] "Expecting value"
        (fun _ _ => .ok [("Brand", "Apple")]) =
      { success := true, productName := "iPhone", category := some "Electronics",
        subcategory := some "Phones", attributes := some [("Brand", "Apple")],
        confidence := some (1/2),
        note := some "Extracted using fallback method due to JSON parsing error",
        error := none } ∧
    (aiApiParseFailureResult "Brand: Apple" "Brand: Apple" "iPhone" "Electronics"
        "Phones" ["Brand"] "Expecting value"
        (fun _ _ => .error "AttributeError")).success = false ∧
    pyIn "AttributeError"
      ("JSON parse failed and fallback extraction failed: " ++
        "Expecting value" ++ " | " ++ "AttributeError") = true := by
  refine ⟨?_, ?_, ?_, ?_⟩
  · exact (parse_failure_fallback.1 "Brand: Apple" "iPhone" "Electronics" "Phones"
      ["Brand"]).1
  · exact parse_failure_fallback.2.2.1 "Brand: Apple" "Brand: Apple" "iPhone"
      "Electronics" "Phones" "Expecting value" ["Brand"] [("Brand", "Apple")]
      (fun _ _ => .ok [("Brand", "Apple")]) rfl
  · exact (parse_failure_fallback.2.2.2 "Brand: Apple" "Brand: Apple" "iPhone"
      "Electronics" "Phones" "Expecting value" "AttributeError" ["Brand"]
      (fun _ _ => .error "AttributeError") rfl).1
  · exact (parse_failure_fallback.2.2.2 "Brand: Apple" "Brand: Apple" "iPhone"
      "Electronics" "Phones" "Expecting value" "AttributeError" ["Brand"]
      (fun _ _ => .error "AttributeError") rfl).2.2.2

end FourSapte
